import Mathlib

/-!
# smooth-operator: the MCPServer reconciler

A shallow embedding of `MCPServerReconciler.Reconcile`
(`internal/controller/mcpserver_controller.go`) over the types of
`api/v1alpha1/mcpserver_types.go`, together with the controller-runtime
operations the reconciler calls (`Get`, `client.IgnoreNotFound`,
`ctrl.SetControllerReference`, `controllerutil.CreateOrUpdate`) and an explicit
cluster state on which they act.

The controller-runtime operations follow the library at the version the source
names (v0.22.4): `CreateOrUpdate` reads the object by key, runs the callback on the
fetched object (or on the given one when the key is free) and writes only when the
callback changed something; `SetControllerReference` refuses an object controlled by
somebody else, where owner references are compared by API group, kind and name.
The API server is a cluster state passed explicitly; any of its calls may fail.

Go's `int32` values are only copied, never computed with, and are embedded as `Int`.
Pointers to values (`*int32`, `*bool`, `*EnvVarSource`) are embedded as `Option`.
`map[string]string` is embedded as an association list.
-/

set_option linter.dupNamespace false

namespace SmoothOperator

/-! ## Object model -/

/-- Identity of a namespaced object (`types.NamespacedName`). -/
structure NamespacedName where
  Namespace : String
  Name : String
deriving DecidableEq

/-- The `metav1.OwnerReference` back-pointer from a child to its owner. -/
structure OwnerReference where
  APIVersion : String
  Kind : String
  Name : String
  UID : String
  Controller : Option Bool
  BlockOwnerDeletion : Option Bool
deriving DecidableEq

/-- The part of `metav1.ObjectMeta` the controller reads or writes. -/
structure ObjectMeta where
  Name : String
  Namespace : String
  UID : String
  Labels : List (String × String)
  OwnerReferences : List OwnerReference
deriving DecidableEq

/-- Resource requests and limits (`ResourceRequirements` of the API types). -/
structure ResourceRequirements where
  Requests : List (String × String)
  Limits : List (String × String)
deriving DecidableEq

/-- Desired state of an MCPServer (`MCPServerSpec`). -/
structure MCPServerSpec where
  Image : String
  Replicas : Int
  Port : Int
  SecretName : String
  Resources : Option ResourceRequirements
deriving DecidableEq

/-- One entry of `status.conditions` (`metav1.Condition`). -/
structure Condition where
  Type_ : String
  Status : String
  Reason : String
  Message : String
deriving DecidableEq

/-- Observed state of an MCPServer (`MCPServerStatus`). -/
structure MCPServerStatus where
  AvailableReplicas : Int
  Phase : String
  Conditions : List Condition
deriving DecidableEq

/-- The parent custom resource (`MCPServer`). -/
structure MCPServer where
  ObjectMeta : ObjectMeta
  Spec : MCPServerSpec
  Status : MCPServerStatus
deriving DecidableEq

/-- A declared container port (`corev1.ContainerPort`). -/
structure ContainerPort where
  Name : String
  ContainerPort : Int
  Protocol : String
deriving DecidableEq

/-- Reference to an object in the same namespace (`corev1.LocalObjectReference`). -/
structure LocalObjectReference where
  Name : String
deriving DecidableEq

/-- Selects a key of a Secret (`corev1.SecretKeySelector`). -/
structure SecretKeySelector where
  LocalObjectReference : LocalObjectReference
  Key : String
deriving DecidableEq

/-- Selects a key of a ConfigMap (`corev1.ConfigMapKeySelector`). -/
structure ConfigMapKeySelector where
  LocalObjectReference : LocalObjectReference
  Key : String
deriving DecidableEq

/-- Source of an environment value (`corev1.EnvVarSource`). -/
structure EnvVarSource where
  ConfigMapKeyRef : Option ConfigMapKeySelector
  SecretKeyRef : Option SecretKeySelector
deriving DecidableEq

/-- An environment entry of a container (`corev1.EnvVar`). -/
structure EnvVar where
  Name : String
  Value : String
  ValueFrom : Option EnvVarSource
deriving DecidableEq

/-- A container of the pod template (`corev1.Container`). -/
structure Container where
  Name : String
  Image : String
  ImagePullPolicy : String
  Ports : List ContainerPort
  Env : List EnvVar
deriving DecidableEq

/-- The pod specification (`corev1.PodSpec`). -/
structure PodSpec where
  Containers : List Container
  ServiceAccountName : String
deriving DecidableEq

/-- The pod template of a Deployment (`corev1.PodTemplateSpec`). -/
structure PodTemplateSpec where
  ObjectMeta : ObjectMeta
  Spec : PodSpec
deriving DecidableEq

/-- A label selector (`metav1.LabelSelector`). -/
structure LabelSelector where
  MatchLabels : List (String × String)
deriving DecidableEq

/-- Specification of a Deployment (`appsv1.DeploymentSpec`). -/
structure DeploymentSpec where
  Replicas : Option Int
  Selector : Option LabelSelector
  Template : PodTemplateSpec
  Paused : Bool
deriving DecidableEq

/-- Observed state of a Deployment (`appsv1.DeploymentStatus`). -/
structure DeploymentStatus where
  Replicas : Int
  ReadyReplicas : Int
deriving DecidableEq

/-- The workload child (`appsv1.Deployment`). -/
structure Deployment where
  ObjectMeta : ObjectMeta
  Spec : DeploymentSpec
  Status : DeploymentStatus
deriving DecidableEq

/-- A port of a Service (`corev1.ServicePort`). -/
structure ServicePort where
  Name : String
  Port : Int
  TargetPort : Int
deriving DecidableEq

/-- Specification of a Service (`corev1.ServiceSpec`). -/
structure ServiceSpec where
  Ports : List ServicePort
  Selector : List (String × String)
  Type_ : String
deriving DecidableEq

/-- The network child (`corev1.Service`). -/
structure Service where
  ObjectMeta : ObjectMeta
  Spec : ServiceSpec
deriving DecidableEq

/-! ## Results, errors and the reconciler's environment -/

/-- A group and version (`schema.GroupVersion`). -/
structure GroupVersion where
  Group : String
  Version : String
deriving DecidableEq

/-- A group, version and kind (`schema.GroupVersionKind`). -/
structure GroupVersionKind where
  Group : String
  Version : String
  Kind : String
deriving DecidableEq

/-- The error values that can come out of the calls made by `Reconcile`. -/
inductive Err where
  | NotFound (key : NamespacedName)
  | AlreadyExists (key : NamespacedName)
  | Server (msg : String)
  | NoKind
  | ClusterScopedOwned
  | CrossNamespaceOwner
  | AlreadyOwned (owner : OwnerReference)
  | MutatedKey
deriving DecidableEq

/-- The value `ctrl.Result`; the zero value asks for no requeue. -/
structure Result where
  Requeue : Bool
  RequeueAfter : Nat
deriving DecidableEq

/-- The request handed to `Reconcile` (`ctrl.Request`). -/
structure Request where
  NamespacedName : NamespacedName
deriving DecidableEq

/-- Outcome of a possibly panicking Go computation that yields a value or an error. -/
inductive Res (α : Type) where
  | ok (a : α)
  | err (e : Err)
  | panicked
deriving DecidableEq

/-- What a call of `Reconcile` does: it returns `(ctrl.Result, error)` or panics. -/
inductive Outcome where
  | returned (result : Result) (err : Option Err)
  | panicked
deriving DecidableEq

/-- A write request issued to the API server. -/
inductive Call where
  | Create (key : NamespacedName)
  | Update (key : NamespacedName)
deriving DecidableEq

/-- Result of `controllerutil.CreateOrUpdate` (`OperationResult`). -/
inductive OperationResult where
  | None
  | Created
  | Updated
deriving DecidableEq

/-- The objects held by the API server. -/
structure Cluster where
  MCPServers : List MCPServer
  Deployments : List Deployment
  Services : List Service
deriving DecidableEq

/-- Failures of the API server or the transport, one slot per client call that
`Reconcile` can make. A slot holding a message makes that call fail with a
server error (never `NotFound`). -/
structure Faults where
  GetMCPServer : Option String
  GetDeployment : Option String
  CreateDeployment : Option String
  UpdateDeployment : Option String
deriving DecidableEq

/-- The runtime scheme as far as the reconciler uses it: the group-versions under
which the Go type `MCPServer` is registered. `SchemeBuilder.Register(&MCPServer{})`
registers the type under the kind named after the Go type. -/
structure Scheme where
  MCPServerGVs : List GroupVersion
deriving DecidableEq

/-- State after a call of `Reconcile`: its outcome, the cluster and the writes issued. -/
structure Run where
  outcome : Outcome
  cluster : Cluster
  calls : List Call
deriving DecidableEq

/-! ## API machinery called by the reconciler -/

/-- The key under which an object is stored (`client.ObjectKeyFromObject`). -/
def ObjectKeyFromObject (m : ObjectMeta) : NamespacedName :=
  { Namespace := m.Namespace, Name := m.Name }

/-- Rendering of a group-version as an `apiVersion` string (`GroupVersion.String`). -/
def GroupVersion.String (gv : GroupVersion) : String :=
  if gv.Group.length > 0 then gv.Group ++ "/" ++ gv.Version else gv.Version

/-- Parsing of an `apiVersion` string (`schema.ParseGroupVersion`): the empty string
and "/" give the empty group-version, a string without a slash is a version of the
core group, one slash separates group and version, more slashes are an error. -/
def ParseGroupVersion (gv : String) : Option GroupVersion :=
  if gv.length = 0 ∨ gv = "/" then some { Group := "", Version := "" }
  else
    match gv.data.count '/' with
    | 0 => some { Group := "", Version := gv }
    | 1 => some { Group := String.mk (gv.data.takeWhile (fun c => c != '/')),
                  Version := String.mk ((gv.data.dropWhile (fun c => c != '/')).drop 1) }
    | _ => none

/-- The group-version-kind of the parent object (`apiutil.GVKForObject`): defined when
the scheme registers the Go type `MCPServer` under exactly one group-version. -/
def GVKForObject (scheme : Scheme) : Option GroupVersionKind :=
  match scheme.MCPServerGVs with
  | [gv] => some { Group := gv.Group, Version := gv.Version, Kind := "MCPServer" }
  | _ => none

/-- The check `validateOwner` of controllerutil: a namespaced owner needs a child in
the same namespace. -/
def validateOwner (owner : ObjectMeta) (object : ObjectMeta) : Option Err :=
  if owner.Namespace != "" then
    if object.Namespace == "" then some Err.ClusterScopedOwned
    else if owner.Namespace != object.Namespace then some Err.CrossNamespaceOwner
    else none
  else none

/-- Two owner references point to the same object when both `apiVersion`s parse and
group, kind and name agree (`referSameObject` of controllerutil; the UID and the
version are not compared). -/
def referSameObject (a b : OwnerReference) : Bool :=
  match ParseGroupVersion a.APIVersion with
  | none => false
  | some aGV =>
    match ParseGroupVersion b.APIVersion with
    | none => false
    | some bGV => aGV.Group == bGV.Group && a.Kind == b.Kind && a.Name == b.Name

/-- The first owner reference whose `Controller` flag is set and true
(`metav1.GetControllerOf`). -/
def GetControllerOf (refs : List OwnerReference) : Option OwnerReference :=
  refs.find? (fun r => r.Controller == some true)

/-- Replace the first reference to the same object by `ref`, or append `ref` when
there is none (`upsertOwnerRef` with `indexOwnerRef`). -/
def upsertOwnerRef (ref : OwnerReference) : List OwnerReference → List OwnerReference
  | [] => [ref]
  | r :: rs => if referSameObject r ref then ref :: rs else r :: upsertOwnerRef ref rs

/-- Replacing the owner references of a Deployment (`SetOwnerReferences`). -/
def Deployment.SetOwnerReferences (d : Deployment) (refs : List OwnerReference) : Deployment :=
  { d with ObjectMeta := { d.ObjectMeta with OwnerReferences := refs } }

/-- The controller reference that `SetControllerReference` builds for the owner. -/
def newControllerRef (owner : MCPServer) (gvk : GroupVersionKind) : OwnerReference :=
  { APIVersion := GroupVersion.String { Group := gvk.Group, Version := gvk.Version },
    Kind := gvk.Kind,
    Name := owner.ObjectMeta.Name,
    UID := owner.ObjectMeta.UID,
    BlockOwnerDeletion := some true,
    Controller := some true }

/-- Stamping of the controller reference (`ctrl.SetControllerReference`) of owner
`owner` on the Deployment `controlled`. -/
def SetControllerReference (owner : MCPServer) (controlled : Deployment)
    (scheme : Scheme) : Except Err Deployment :=
  match validateOwner owner.ObjectMeta controlled.ObjectMeta with
  | some e => .error e
  | none =>
    match GVKForObject scheme with
    | none => .error Err.NoKind
    | some gvk =>
      let ref := newControllerRef owner gvk
      match GetControllerOf controlled.ObjectMeta.OwnerReferences with
      | some existing =>
        if referSameObject existing ref then
          .ok (controlled.SetOwnerReferences
                (upsertOwnerRef ref controlled.ObjectMeta.OwnerReferences))
        else .error (Err.AlreadyOwned existing)
      | none =>
        .ok (controlled.SetOwnerReferences
              (upsertOwnerRef ref controlled.ObjectMeta.OwnerReferences))

/-- The filter `client.IgnoreNotFound`: a NotFound error becomes nil. -/
def IgnoreNotFound (err : Err) : Option Err :=
  match err with
  | .NotFound _ => none
  | e => some e

/-- The MCPServer stored under a key, if any. -/
def findMCPServer (c : Cluster) (key : NamespacedName) : Option MCPServer :=
  c.MCPServers.find? (fun m => ObjectKeyFromObject m.ObjectMeta == key)

/-- The Deployment stored under a key, if any. -/
def findDeployment (c : Cluster) (key : NamespacedName) : Option Deployment :=
  c.Deployments.find? (fun d => ObjectKeyFromObject d.ObjectMeta == key)

/-- The Service stored under a key, if any. -/
def findService (c : Cluster) (key : NamespacedName) : Option Service :=
  c.Services.find? (fun d => ObjectKeyFromObject d.ObjectMeta == key)

/-- Reading the parent by key (`r.Get` on an MCPServer). -/
def GetMCPServer (faults : Faults) (c : Cluster) (key : NamespacedName) :
    Except Err MCPServer :=
  match faults.GetMCPServer with
  | some msg => .error (Err.Server msg)
  | none =>
    match findMCPServer c key with
    | some m => .ok m
    | none => .error (Err.NotFound key)

/-- Reading a Deployment by key (`c.Get` inside `CreateOrUpdate`). -/
def GetDeployment (faults : Faults) (c : Cluster) (key : NamespacedName) :
    Except Err Deployment :=
  match faults.GetDeployment with
  | some msg => .error (Err.Server msg)
  | none =>
    match findDeployment c key with
    | some d => .ok d
    | none => .error (Err.NotFound key)

/-- Creating a Deployment (`c.Create`): fails when the server fails or the key is taken. -/
def CreateDeployment (faults : Faults) (c : Cluster) (obj : Deployment) :
    Except Err Cluster :=
  match faults.CreateDeployment with
  | some msg => .error (Err.Server msg)
  | none =>
    if (findDeployment c (ObjectKeyFromObject obj.ObjectMeta)).isSome
    then .error (Err.AlreadyExists (ObjectKeyFromObject obj.ObjectMeta))
    else .ok { c with Deployments := c.Deployments ++ [obj] }

/-- Updating a Deployment (`c.Update`): fails when the server fails or the key is
absent, otherwise the stored object is replaced. -/
def UpdateDeployment (faults : Faults) (c : Cluster) (obj : Deployment) :
    Except Err Cluster :=
  match faults.UpdateDeployment with
  | some msg => .error (Err.Server msg)
  | none =>
    if (findDeployment c (ObjectKeyFromObject obj.ObjectMeta)).isSome
    then .ok { c with Deployments := c.Deployments.map (fun d =>
            if ObjectKeyFromObject d.ObjectMeta == ObjectKeyFromObject obj.ObjectMeta then obj else d) }
    else .error (Err.NotFound (ObjectKeyFromObject obj.ObjectMeta))

/-- State after `CreateOrUpdate`: its result, the cluster and the writes issued. -/
structure CreateOrUpdateRun where
  result : Res OperationResult
  cluster : Cluster
  calls : List Call
deriving DecidableEq

/-- The wrapper `mutate` of controllerutil: run the callback, then reject a changed key. -/
def mutate (f : Deployment → Res Deployment) (key : NamespacedName) (obj : Deployment) :
    Res Deployment :=
  match f obj with
  | .ok obj1 =>
    if ObjectKeyFromObject obj1.ObjectMeta != key then .err Err.MutatedKey else .ok obj1
  | .err e => .err e
  | .panicked => .panicked

/-- The read-modify-write `controllerutil.CreateOrUpdate` on a Deployment: the object
is read by its key; when absent the callback runs on the given object, which is then
created; when present the callback runs on the stored object, which is updated unless
the callback changed nothing. -/
def CreateOrUpdate (faults : Faults) (c : Cluster) (obj : Deployment)
    (f : Deployment → Res Deployment) : CreateOrUpdateRun :=
  let key := ObjectKeyFromObject obj.ObjectMeta
  match GetDeployment faults c key with
  | .error (.NotFound _) =>
    match mutate f key obj with
    | .err e => { result := .err e, cluster := c, calls := [] }
    | .panicked => { result := .panicked, cluster := c, calls := [] }
    | .ok obj1 =>
      match CreateDeployment faults c obj1 with
      | .error e => { result := .err e, cluster := c, calls := [Call.Create key] }
      | .ok c1 => { result := .ok .Created, cluster := c1, calls := [Call.Create key] }
  | .error e => { result := .err e, cluster := c, calls := [] }
  | .ok existing =>
    match mutate f key existing with
    | .err e => { result := .err e, cluster := c, calls := [] }
    | .panicked => { result := .panicked, cluster := c, calls := [] }
    | .ok obj1 =>
      if existing = obj1 then { result := .ok .None, cluster := c, calls := [] }
      else
        match UpdateDeployment faults c obj1 with
        | .error e => { result := .err e, cluster := c, calls := [Call.Update key] }
        | .ok c1 => { result := .ok .Updated, cluster := c1, calls := [Call.Update key] }

/-! ## The reconciler -/

/-- The Deployment literal built by `Reconcile` from the parent (lines 63-104). -/
def deploymentFor (mcpServer : MCPServer) : Deployment :=
  { ObjectMeta :=
      { Name := mcpServer.ObjectMeta.Name,
        Namespace := mcpServer.ObjectMeta.Namespace,
        UID := "", Labels := [], OwnerReferences := [] },
    Spec :=
      { Replicas := some mcpServer.Spec.Replicas,
        Selector := some { MatchLabels := [("app", mcpServer.ObjectMeta.Name)] },
        Template :=
          { ObjectMeta :=
              { Name := "", Namespace := "", UID := "",
                Labels := [("app", mcpServer.ObjectMeta.Name)], OwnerReferences := [] },
            Spec :=
              { Containers := [
                  { Name := "mcp-server",
                    Image := mcpServer.Spec.Image,
                    ImagePullPolicy := "Never",
                    Ports := [{ ContainerPort := mcpServer.Spec.Port, Name := "http", Protocol := "" }],
                    Env := [
                      { Name := "OPENWEATHER_API_KEY",
                        Value := "",
                        ValueFrom := some
                          { ConfigMapKeyRef := none,
                            SecretKeyRef := some
                              { LocalObjectReference := { Name := mcpServer.Spec.SecretName },
                                Key := "OPENWEATHER_API_KEY" } } }] }],
                ServiceAccountName := "" } },
        Paused := false },
    Status := { Replicas := 0, ReadyReplicas := 0 } }

/-- The built Deployment after the first `ctrl.SetControllerReference` (line 106),
whose error the reconciler drops: on an error the Deployment stays as built. -/
def stampedDeployment (scheme : Scheme) (mcpServer : MCPServer) : Deployment :=
  match SetControllerReference mcpServer (deploymentFor mcpServer) scheme with
  | .ok d => d
  | .error _ => deploymentFor mcpServer

/-- The three assignments at the start of the callback (lines 109-112): the replica
count, the image of `Containers[0]` and the port of `Containers[0].Ports[0]`. The
result is `none` when an index is out of range, where the Go code panics. -/
def assignFields (mcpServer : MCPServer) (deployment : Deployment) : Option Deployment :=
  match deployment.Spec.Template.Spec.Containers with
  | [] => none
  | c0 :: cs =>
    match c0.Ports with
    | [] => none
    | p0 :: ps =>
      let c1 : Container :=
        { c0 with Image := mcpServer.Spec.Image,
                  Ports := { p0 with ContainerPort := mcpServer.Spec.Port } :: ps }
      some { deployment with Spec := { deployment.Spec with
              Replicas := some mcpServer.Spec.Replicas,
              Template := { deployment.Spec.Template with
                Spec := { deployment.Spec.Template.Spec with Containers := c1 :: cs } } } }

/-- The callback handed to `CreateOrUpdate` (lines 108-115): the three assignments,
then the controller reference is stamped again and its error returned. -/
def mutateFn (scheme : Scheme) (mcpServer : MCPServer) (deployment : Deployment) :
    Res Deployment :=
  match assignFields mcpServer deployment with
  | none => .panicked
  | some d1 =>
    match SetControllerReference mcpServer d1 scheme with
    | .ok d2 => .ok d2
    | .error e => .err e

/-- One call of `MCPServerReconciler.Reconcile` against cluster `c`. -/
def Reconcile (scheme : Scheme) (faults : Faults) (c : Cluster) (req : Request) : Run :=
  match GetMCPServer faults c req.NamespacedName with
  | .error err =>
    { outcome := .returned { Requeue := false, RequeueAfter := 0 } (IgnoreNotFound err),
      cluster := c, calls := [] }
  | .ok mcpServer =>
    let deployment := stampedDeployment scheme mcpServer
    let run := CreateOrUpdate faults c deployment (mutateFn scheme mcpServer)
    match run.result with
    | .panicked => { outcome := .panicked, cluster := run.cluster, calls := run.calls }
    | .err err =>
      { outcome := .returned { Requeue := false, RequeueAfter := 0 } (some err),
        cluster := run.cluster, calls := run.calls }
    | .ok _ =>
      { outcome := .returned { Requeue := false, RequeueAfter := 0 } none,
        cluster := run.cluster, calls := run.calls }

/-! ## Sample data -/

/-- The scheme of the running manager: `MCPServer` registered under `mcp.mcp.dev/v1alpha1`. -/
def theScheme : Scheme := { MCPServerGVs := [{ Group := "mcp.mcp.dev", Version := "v1alpha1" }] }

/-- No failing call. -/
def noFaults : Faults :=
  { GetMCPServer := none, GetDeployment := none, CreateDeployment := none, UpdateDeployment := none }

/-- The parent of the test "should create a Deployment with correct spec". -/
def testServer : MCPServer :=
  { ObjectMeta := { Name := "test-deploy", Namespace := "default", UID := "uid-1",
                    Labels := [], OwnerReferences := [] },
    Spec := { Image := "test-image:v1", Replicas := 2, Port := 8080, SecretName := "",
              Resources := none },
    Status := { AvailableReplicas := 0, Phase := "", Conditions := [] } }

/-- A cluster holding only the test parent. -/
def testCluster : Cluster := { MCPServers := [testServer], Deployments := [], Services := [] }

/-- The request for the test parent. -/
def testRequest : Request := { NamespacedName := { Namespace := "default", Name := "test-deploy" } }

/-! ## Shape of stored Deployments and reachable clusters -/

/-- A Deployment with exactly one container that declares exactly one port. -/
def WellShaped (d : Deployment) : Prop :=
  d.Spec.Template.Spec.Containers.length = 1 ∧
  ∀ k ∈ d.Spec.Template.Spec.Containers, k.Ports.length = 1

instance (d : Deployment) : Decidable (WellShaped d) := by
  unfold WellShaped
  exact inferInstance

/-- The clusters reachable by Reconcile calls alone: starting without any Deployment,
the only writer of Deployments is `Reconcile` (with any request and any failing
calls), while the parents may be created, edited and deleted freely in between. -/
inductive Reachable (scheme : Scheme) : Cluster → Prop where
  | start (c : Cluster) (h : c.Deployments = []) : Reachable scheme c
  | reconcile (c : Cluster) (faults : Faults) (req : Request) (h : Reachable scheme c) :
      Reachable scheme (Reconcile scheme faults c req).cluster
  | parents (c : Cluster) (ms : List MCPServer) (h : Reachable scheme c) :
      Reachable scheme { c with MCPServers := ms }

/-- A Deployment of the test parent's name whose only container declares no ports. -/
def portlessDeployment : Deployment :=
  { (deploymentFor testServer) with
    Spec := { (deploymentFor testServer).Spec with
      Template := { (deploymentFor testServer).Spec.Template with
        Spec := { Containers := [{ Name := "mcp-server", Image := "test-image:v0",
                                   ImagePullPolicy := "Never", Ports := [], Env := [] }],
                  ServiceAccountName := "" } } } }

/-- A cluster holding the test parent and the port-less Deployment of the same name. -/
def portlessCluster : Cluster :=
  { MCPServers := [testServer], Deployments := [portlessDeployment], Services := [] }

/-- The secret names referenced by the secret-sourced environment entries of a
container. -/
def secretEnvNames (k : Container) : List String :=
  k.Env.filterMap (fun e =>
    match e.ValueFrom with
    | some src =>
      match src.SecretKeyRef with
      | some sel => some sel.LocalObjectReference.Name
      | none => none
    | none => none)

/-- The parent of the test "should update status phase": one replica, freshly
created, so with an empty status. -/
def statusServer : MCPServer :=
  { ObjectMeta := { Name := "test-status", Namespace := "default", UID := "uid-2",
                    Labels := [], OwnerReferences := [] },
    Spec := { Image := "test-image:v1", Replicas := 1, Port := 8080, SecretName := "",
              Resources := none },
    Status := { AvailableReplicas := 0, Phase := "", Conditions := [] } }

/-- A cluster holding only the parent of the status test. -/
def statusCluster : Cluster := { MCPServers := [statusServer], Deployments := [], Services := [] }

/-- The request for the parent of the status test. -/
def statusRequest : Request := { NamespacedName := { Namespace := "default", Name := "test-status" } }

/-- The test parent with a secret name. -/
def secretServer (secretName : String) : MCPServer :=
  { testServer with Spec := { testServer.Spec with SecretName := secretName } }

/-- The cluster in which the test parent, reconciled once with secret name
"old-secret", has since been edited to name "new-secret". -/
def editedSecretCluster : Cluster :=
  { (Reconcile theScheme noFaults
      { MCPServers := [secretServer "old-secret"], Deployments := [], Services := [] }
      testRequest).cluster with
    MCPServers := [secretServer "new-secret"] }

/-- The parent of the tests as it was before being deleted and created again: same
name, another UID. -/
def oldServer : MCPServer :=
  { testServer with ObjectMeta := { testServer.ObjectMeta with UID := "uid-0" } }

/-- A cluster holding the test parent and the Deployment left behind by `oldServer`. -/
def staleCluster : Cluster :=
  { MCPServers := [testServer],
    Deployments := [stampedDeployment theScheme oldServer],
    Services := [] }

/-- A Deployment of the test parent's name, controlled by a ReplicaSet-like foreign
owner, with no container. -/
def emptyForeignDeployment : Deployment :=
  { (deploymentFor testServer) with
    ObjectMeta := { (deploymentFor testServer).ObjectMeta with
      OwnerReferences := [{ APIVersion := "apps/v1", Kind := "Other", Name := "other",
                            UID := "uid-9", Controller := some true,
                            BlockOwnerDeletion := none }] },
    Spec := { (deploymentFor testServer).Spec with
      Template := { (deploymentFor testServer).Spec.Template with
        Spec := { Containers := [], ServiceAccountName := "" } } } }

/-- A Deployment of the test parent's name with a foreign controller (another kind and
name). -/
def foreignDeployment : Deployment :=
  (deploymentFor testServer).SetOwnerReferences
    [{ APIVersion := "apps/v1", Kind := "Other", Name := "other", UID := "uid-9",
       Controller := some true, BlockOwnerDeletion := none }]

/-- The cluster in which the test parent, reconciled once, has since been edited to
3 replicas (the test "should update Deployment when replicas change"). -/
def scaledCluster : Cluster :=
  { (Reconcile theScheme noFaults testCluster testRequest).cluster with
    MCPServers := [{ testServer with Spec := { testServer.Spec with Replicas := 3 } }] }

/-! ## Basic facts about the store and the helpers -/

theorem findDeployment_key {c : Cluster} {key : NamespacedName} {d : Deployment}
    (h : findDeployment c key = some d) : ObjectKeyFromObject d.ObjectMeta = key := by
  unfold findDeployment at h
  have := List.find?_some h
  simpa using this

theorem findMCPServer_key {c : Cluster} {key : NamespacedName} {m : MCPServer}
    (h : findMCPServer c key = some m) : ObjectKeyFromObject m.ObjectMeta = key := by
  unfold findMCPServer at h
  have := List.find?_some h
  simpa using this

theorem find_append_new (ds : List Deployment) (obj : Deployment) (key : NamespacedName)
    (hk : ObjectKeyFromObject obj.ObjectMeta = key)
    (hnone : ds.find? (fun d => ObjectKeyFromObject d.ObjectMeta == key) = none) :
    (ds ++ [obj]).find? (fun d => ObjectKeyFromObject d.ObjectMeta == key) = some obj := by
  rw [List.find?_append, hnone]
  simp [hk]

theorem find_map_replace (ds : List Deployment) (obj : Deployment) (key : NamespacedName)
    (hk : ObjectKeyFromObject obj.ObjectMeta = key)
    (hsome : (ds.find? (fun d => ObjectKeyFromObject d.ObjectMeta == key)).isSome) :
    (ds.map (fun d => if ObjectKeyFromObject d.ObjectMeta == key then obj else d)).find?
      (fun d => ObjectKeyFromObject d.ObjectMeta == key) = some obj := by
  induction ds with
  | nil => simp at hsome
  | cons d ds ih =>
    by_cases hd : ObjectKeyFromObject d.ObjectMeta = key
    · have h1 : (ObjectKeyFromObject d.ObjectMeta == key) = true := by simp [hd]
      have h2 : (ObjectKeyFromObject obj.ObjectMeta == key) = true := by simp [hk]
      simp only [List.map_cons, h1, if_true, List.find?_cons, h2]
    · have h1 : (ObjectKeyFromObject d.ObjectMeta == key) = false := by simp [hd]
      simp only [List.find?_cons, h1] at hsome
      simp only [List.map_cons, h1, List.find?_cons, Bool.false_eq_true, if_false]
      exact ih hsome

theorem SetControllerReference_ok {m : MCPServer} {d d1 : Deployment} {scheme : Scheme}
    (h : SetControllerReference m d scheme = .ok d1) :
    ∃ gvk, GVKForObject scheme = some gvk ∧
      d1 = d.SetOwnerReferences
        (upsertOwnerRef (newControllerRef m gvk) d.ObjectMeta.OwnerReferences) ∧
      ∀ e, GetControllerOf d.ObjectMeta.OwnerReferences = some e →
        referSameObject e (newControllerRef m gvk) = true := by
  unfold SetControllerReference at h
  split at h
  · cases h
  · split at h
    · cases h
    · rename_i gvk hg
      refine ⟨gvk, hg, ?_⟩
      split at h
      · rename_i existing he
        dsimp only at h
        split at h
        · rename_i hr
          injection h with h
          refine ⟨h.symm, ?_⟩
          intro e hee
          rw [he] at hee
          cases hee
          exact hr
        · cases h
      · rename_i hn
        injection h with h
        refine ⟨h.symm, ?_⟩
        intro e hee
        rw [hn] at hee
        cases hee

theorem GetDeployment_ok {faults : Faults} {c : Cluster} {key : NamespacedName}
    {d : Deployment} (h : GetDeployment faults c key = .ok d) :
    findDeployment c key = some d := by
  unfold GetDeployment at h
  split at h
  · cases h
  · split at h
    · rename_i hf
      injection h with h
      rw [hf, h]
    · cases h

theorem GetDeployment_notFound {faults : Faults} {c : Cluster} {key k : NamespacedName}
    (h : GetDeployment faults c key = .error (.NotFound k)) :
    findDeployment c key = none := by
  unfold GetDeployment at h
  split at h
  · cases h
  · split at h
    · cases h
    · assumption

theorem mutate_ok {f : Deployment → Res Deployment} {key : NamespacedName}
    {obj obj1 : Deployment} (h : mutate f key obj = .ok obj1) :
    f obj = .ok obj1 ∧ ObjectKeyFromObject obj1.ObjectMeta = key := by
  unfold mutate at h
  split at h
  · rename_i o hf
    split at h
    · cases h
    · rename_i hk
      injection h with h
      subst h
      exact ⟨hf, by simpa using hk⟩
  · cases h
  · cases h

theorem CreateDeployment_ok {faults : Faults} {c c1 : Cluster} {obj : Deployment}
    (h : CreateDeployment faults c obj = .ok c1) :
    c1 = { c with Deployments := c.Deployments ++ [obj] } := by
  unfold CreateDeployment at h
  split at h
  · cases h
  · split at h
    · cases h
    · injection h with h
      exact h.symm

theorem UpdateDeployment_ok {faults : Faults} {c c1 : Cluster} {obj : Deployment}
    (h : UpdateDeployment faults c obj = .ok c1) :
    (findDeployment c (ObjectKeyFromObject obj.ObjectMeta)).isSome ∧
    c1 = { c with Deployments := c.Deployments.map (fun d =>
            if ObjectKeyFromObject d.ObjectMeta == ObjectKeyFromObject obj.ObjectMeta
            then obj else d) } := by
  unfold UpdateDeployment at h
  split at h
  · cases h
  · split at h
    · rename_i hs
      injection h with h
      exact ⟨hs, h.symm⟩
    · cases h

theorem CreateOrUpdate_ok {faults : Faults} {c : Cluster} {obj : Deployment}
    {f : Deployment → Res Deployment} {r : OperationResult}
    (h : (CreateOrUpdate faults c obj f).result = .ok r) :
    ∃ base obj1, f base = .ok obj1 ∧
      ObjectKeyFromObject obj1.ObjectMeta = ObjectKeyFromObject obj.ObjectMeta ∧
      findDeployment (CreateOrUpdate faults c obj f).cluster
        (ObjectKeyFromObject obj.ObjectMeta) = some obj1 ∧
      ((findDeployment c (ObjectKeyFromObject obj.ObjectMeta) = none ∧ base = obj ∧
          (CreateOrUpdate faults c obj f).calls = [Call.Create (ObjectKeyFromObject obj.ObjectMeta)]) ∨
       (findDeployment c (ObjectKeyFromObject obj.ObjectMeta) = some base ∧
          (((CreateOrUpdate faults c obj f).calls = [] ∧
             (CreateOrUpdate faults c obj f).cluster = c ∧ base = obj1) ∨
           (CreateOrUpdate faults c obj f).calls = [Call.Update (ObjectKeyFromObject obj.ObjectMeta)]))) := by
  rcases hget : GetDeployment faults c (ObjectKeyFromObject obj.ObjectMeta) with e | existing
  · cases e with
    | NotFound k =>
      have hnone := GetDeployment_notFound hget
      rcases hm : mutate f (ObjectKeyFromObject obj.ObjectMeta) obj with obj1 | e | _
      · obtain ⟨hf, hk⟩ := mutate_ok hm
        rcases hc : CreateDeployment faults c obj1 with e | c1
        · simp [CreateOrUpdate, hget, hm, hc] at h
        · have hc1 := CreateDeployment_ok hc
          refine ⟨obj, obj1, hf, hk, ?_, Or.inl ⟨hnone, rfl, ?_⟩⟩
          · simp only [CreateOrUpdate, hget, hm, hc]
            rw [hc1]
            exact find_append_new _ _ _ hk hnone
          · simp only [CreateOrUpdate, hget, hm, hc]
      · simp [CreateOrUpdate, hget, hm] at h
      · simp [CreateOrUpdate, hget, hm] at h
    | _ => simp [CreateOrUpdate, hget] at h
  · have hsome := GetDeployment_ok hget
    rcases hm : mutate f (ObjectKeyFromObject obj.ObjectMeta) existing with obj1 | e | _
    · obtain ⟨hf, hk⟩ := mutate_ok hm
      by_cases heq : existing = obj1
      · subst heq
        refine ⟨existing, existing, hf, hk, ?_, Or.inr ⟨hsome, Or.inl ⟨?_, ?_, rfl⟩⟩⟩
        · simp only [CreateOrUpdate, hget, hm, if_true]
          exact hsome
        · simp only [CreateOrUpdate, hget, hm, if_true]
        · simp only [CreateOrUpdate, hget, hm, if_true]
      · rcases hu : UpdateDeployment faults c obj1 with e | c1
        · simp [CreateOrUpdate, hget, hm, hu, heq] at h
        · obtain ⟨hs, hc1⟩ := UpdateDeployment_ok hu
          refine ⟨existing, obj1, hf, hk, ?_, Or.inr ⟨hsome, Or.inr ?_⟩⟩
          · simp only [CreateOrUpdate, hget, hm, hu, heq, if_false]
            rw [hc1]
            rw [hk] at hs
            have := find_map_replace c.Deployments obj1 _ hk hs
            rw [hk]
            exact this
          · simp only [CreateOrUpdate, hget, hm, hu, heq, if_false]
    · simp [CreateOrUpdate, hget, hm] at h
    · simp [CreateOrUpdate, hget, hm] at h

theorem GetMCPServer_ok (faults : Faults) {c : Cluster} {key : NamespacedName}
    {m : MCPServer} (hf : faults.GetMCPServer = none) (h : findMCPServer c key = some m) :
    GetMCPServer faults c key = .ok m := by
  simp [GetMCPServer, hf, h]

theorem stampedDeployment_key (scheme : Scheme) (m : MCPServer) :
    ObjectKeyFromObject (stampedDeployment scheme m).ObjectMeta =
      ObjectKeyFromObject m.ObjectMeta := by
  unfold stampedDeployment
  split
  · rename_i d hd
    obtain ⟨gvk, _, hd1, _⟩ := SetControllerReference_ok hd
    rw [hd1]
    rfl
  · rfl

/-- A successful reconciliation of a present parent stores under the parent's key the
output of the callback, run on the stamped build when the Deployment was absent and
on the stored Deployment otherwise. -/
theorem Reconcile_ok {scheme : Scheme} {faults : Faults} {c : Cluster} {req : Request}
    {m : MCPServer} {r : Result}
    (hparent : findMCPServer c req.NamespacedName = some m)
    (hok : (Reconcile scheme faults c req).outcome = .returned r none) :
    ∃ base obj1, mutateFn scheme m base = .ok obj1 ∧
      findDeployment (Reconcile scheme faults c req).cluster req.NamespacedName = some obj1 ∧
      ((findDeployment c req.NamespacedName = none ∧ base = stampedDeployment scheme m ∧
          (Reconcile scheme faults c req).calls = [Call.Create req.NamespacedName]) ∨
       (findDeployment c req.NamespacedName = some base ∧
          (((Reconcile scheme faults c req).calls = [] ∧
             (Reconcile scheme faults c req).cluster = c ∧ base = obj1) ∨
           (Reconcile scheme faults c req).calls = [Call.Update req.NamespacedName]))) := by
  have hkey : ObjectKeyFromObject (stampedDeployment scheme m).ObjectMeta = req.NamespacedName := by
    rw [stampedDeployment_key]; exact findMCPServer_key hparent
  cases hfault : faults.GetMCPServer with
  | some msg => simp [Reconcile, GetMCPServer, hfault, IgnoreNotFound] at hok
  | none =>
    have hget := GetMCPServer_ok faults hfault hparent
    rcases hres : (CreateOrUpdate faults c (stampedDeployment scheme m)
        (mutateFn scheme m)).result with op | e | _
    · obtain ⟨base, obj1, hf, _, hfind, hcases⟩ := CreateOrUpdate_ok hres
      rw [hkey] at hfind hcases
      refine ⟨base, obj1, hf, ?_, ?_⟩
      · simpa only [Reconcile, hget, hres] using hfind
      · simpa only [Reconcile, hget, hres] using hcases
    · simp [Reconcile, hget, hres] at hok
    · simp [Reconcile, hget, hres] at hok

theorem mutateFn_ok {scheme : Scheme} {m : MCPServer} {d d2 : Deployment}
    (h : mutateFn scheme m d = .ok d2) :
    ∃ d1, assignFields m d = some d1 ∧ SetControllerReference m d1 scheme = .ok d2 := by
  unfold mutateFn at h
  split at h
  · cases h
  · rename_i d1 hd1
    split at h
    · rename_i d3 hd3
      injection h with h
      subst h
      exact ⟨d1, hd1, hd3⟩
    · cases h

theorem assignFields_some {m : MCPServer} {d d1 : Deployment}
    (h : assignFields m d = some d1) :
    ∃ c0 cs p0 ps, d.Spec.Template.Spec.Containers = c0 :: cs ∧ c0.Ports = p0 :: ps ∧
      d1 = { d with Spec := { d.Spec with
              Replicas := some m.Spec.Replicas,
              Template := { d.Spec.Template with
                Spec := { d.Spec.Template.Spec with Containers :=
                  { c0 with Image := m.Spec.Image,
                            Ports := { p0 with ContainerPort := m.Spec.Port } :: ps } :: cs } } } } := by
  unfold assignFields at h
  split at h
  · cases h
  · rename_i c0 cs hc
    split at h
    · cases h
    · rename_i p0 ps hp
      injection h with h
      exact ⟨c0, cs, p0, ps, hc, hp, h.symm⟩

/-- The Deployment returned by the callback carries the parent's replica count, image
and port. -/
theorem mutateFn_fields {scheme : Scheme} {m : MCPServer} {d d2 : Deployment}
    (h : mutateFn scheme m d = .ok d2) :
    d2.Spec.Replicas = some m.Spec.Replicas ∧
    d2.Spec.Template.Spec.Containers.head?.map (fun k => k.Image) = some m.Spec.Image ∧
    (d2.Spec.Template.Spec.Containers.head?.bind (fun k => k.Ports.head?)).map
      (fun p => p.ContainerPort) = some m.Spec.Port := by
  obtain ⟨d1, h1, h2⟩ := mutateFn_ok h
  obtain ⟨c0, cs, p0, ps, -, -, hd1⟩ := assignFields_some h1
  obtain ⟨gvk, -, hd2, -⟩ := SetControllerReference_ok h2
  subst hd2 hd1
  simp [Deployment.SetOwnerReferences]

theorem validateOwner_same_namespace (owner object : ObjectMeta)
    (h : object.Namespace = owner.Namespace) : validateOwner owner object = none := by
  unfold validateOwner
  by_cases hns : owner.Namespace = ""
  · simp [hns]
  · simp [hns, h]

theorem stampedDeployment_refs {scheme : Scheme} {gvk : GroupVersionKind} (m : MCPServer)
    (hg : GVKForObject scheme = some gvk) :
    stampedDeployment scheme m =
      (deploymentFor m).SetOwnerReferences [newControllerRef m gvk] := by
  have hv : validateOwner m.ObjectMeta (deploymentFor m).ObjectMeta = none :=
    validateOwner_same_namespace _ _ rfl
  have hc : GetControllerOf (deploymentFor m).ObjectMeta.OwnerReferences = none := rfl
  have hs : SetControllerReference m (deploymentFor m) scheme =
      .ok ((deploymentFor m).SetOwnerReferences [newControllerRef m gvk]) := by
    unfold SetControllerReference
    rw [hv, hg, hc]
    rfl
  unfold stampedDeployment
  rw [hs]

theorem assignFields_meta {m : MCPServer} {d d1 : Deployment}
    (h : assignFields m d = some d1) : d1.ObjectMeta = d.ObjectMeta := by
  obtain ⟨c0, cs, p0, ps, -, -, hd1⟩ := assignFields_some h
  rw [hd1]

/-- What a Create call issued by `CreateOrUpdate` implies: the key was free, the
callback succeeded on the given object, and the store either is unchanged (the call
failed) or gained exactly the callback's output. -/
theorem CreateOrUpdate_create {faults : Faults} {c : Cluster} {obj : Deployment}
    {f : Deployment → Res Deployment} {k : NamespacedName}
    (h : Call.Create k ∈ (CreateOrUpdate faults c obj f).calls) :
    k = ObjectKeyFromObject obj.ObjectMeta ∧
    findDeployment c (ObjectKeyFromObject obj.ObjectMeta) = none ∧
    ∃ obj1, f obj = .ok obj1 ∧
      ObjectKeyFromObject obj1.ObjectMeta = ObjectKeyFromObject obj.ObjectMeta ∧
      ((CreateOrUpdate faults c obj f).cluster = c ∨
       (CreateOrUpdate faults c obj f).cluster =
         { c with Deployments := c.Deployments ++ [obj1] }) := by
  rcases hget : GetDeployment faults c (ObjectKeyFromObject obj.ObjectMeta) with e | existing
  · cases e with
    | NotFound k1 =>
      have hnone := GetDeployment_notFound hget
      rcases hm : mutate f (ObjectKeyFromObject obj.ObjectMeta) obj with obj1 | e | _
      · obtain ⟨hf, hk⟩ := mutate_ok hm
        rcases hc : CreateDeployment faults c obj1 with e | c1
        · simp only [CreateOrUpdate, hget, hm, hc] at h ⊢
          simp only [List.mem_singleton, Call.Create.injEq] at h
          exact ⟨h, hnone, obj1, hf, hk, Or.inl trivial⟩
        · have hc1 := CreateDeployment_ok hc
          simp only [CreateOrUpdate, hget, hm, hc] at h ⊢
          simp only [List.mem_singleton, Call.Create.injEq] at h
          exact ⟨h, hnone, obj1, hf, hk, Or.inr hc1⟩
      · simp [CreateOrUpdate, hget, hm] at h
      · simp [CreateOrUpdate, hget, hm] at h
    | _ => simp [CreateOrUpdate, hget] at h
  · rcases hm : mutate f (ObjectKeyFromObject obj.ObjectMeta) existing with obj1 | e | _
    · by_cases heq : existing = obj1
      · subst heq
        simp [CreateOrUpdate, hget, hm] at h
      · rcases hu : UpdateDeployment faults c obj1 with e | c1
        · simp [CreateOrUpdate, hget, hm, hu, heq] at h
        · simp [CreateOrUpdate, hget, hm, hu, heq] at h
    · simp [CreateOrUpdate, hget, hm] at h
    · simp [CreateOrUpdate, hget, hm] at h

/-- The calls and the cluster of `Reconcile` for a present parent are those of
`CreateOrUpdate` on the stamped build. -/
theorem Reconcile_present (scheme : Scheme) {faults : Faults} {c : Cluster} {req : Request}
    {m : MCPServer} (hget : GetMCPServer faults c req.NamespacedName = .ok m) :
    (Reconcile scheme faults c req).calls =
      (CreateOrUpdate faults c (stampedDeployment scheme m) (mutateFn scheme m)).calls ∧
    (Reconcile scheme faults c req).cluster =
      (CreateOrUpdate faults c (stampedDeployment scheme m) (mutateFn scheme m)).cluster := by
  rcases hres : (CreateOrUpdate faults c (stampedDeployment scheme m)
      (mutateFn scheme m)).result with op | e | _ <;>
    simp [Reconcile, hget, hres]

theorem GetMCPServer_inv {faults : Faults} {c : Cluster} {key : NamespacedName}
    {m : MCPServer} (h : GetMCPServer faults c key = .ok m) :
    faults.GetMCPServer = none ∧ findMCPServer c key = some m := by
  unfold GetMCPServer at h
  split at h
  · cases h
  · rename_i hf
    split at h
    · rename_i m1 hm
      injection h with h
      subst h
      exact ⟨hf, hm⟩
    · cases h

theorem referSameObject_self {a b : OwnerReference} (h : referSameObject a b = true) :
    referSameObject b b = true := by
  unfold referSameObject at h ⊢
  split at h
  · cases h
  · split at h
    · cases h
    · rename_i bGV hb
      simp [hb]

theorem GetControllerOf_cons (r : OwnerReference) (rs : List OwnerReference) :
    GetControllerOf (r :: rs) =
      if r.Controller = some true then some r else GetControllerOf rs := by
  unfold GetControllerOf
  by_cases h : r.Controller = some true
  · have hb : (r.Controller == some true) = true := by simp [h]
    simp only [List.find?_cons, hb, if_pos h]
  · have hb : (r.Controller == some true) = false := by simp [h]
    simp only [List.find?_cons, hb, if_neg h]

/-- Stamping twice is stamping once, provided the second stamping is admitted. -/
theorem upsertOwnerRef_idem (ref : OwnerReference) (refs : List OwnerReference)
    (h : ∀ e, GetControllerOf (upsertOwnerRef ref refs) = some e →
      referSameObject e ref = true)
    (hc : ref.Controller = some true) :
    upsertOwnerRef ref (upsertOwnerRef ref refs) = upsertOwnerRef ref refs := by
  induction refs with
  | nil =>
    have hself : referSameObject ref ref = true := by
      apply h
      simp [upsertOwnerRef, GetControllerOf_cons, hc]
    simp [upsertOwnerRef, hself]
  | cons r rs ih =>
    by_cases hr : referSameObject r ref = true
    · have hself := referSameObject_self hr
      simp [upsertOwnerRef, hr, hself]
    · have hup : upsertOwnerRef ref (r :: rs) = r :: upsertOwnerRef ref rs := by
        simp [upsertOwnerRef, hr]
      rw [hup] at h ⊢
      have hrc : ¬ r.Controller = some true := by
        intro hrc
        apply hr
        apply h
        simp [GetControllerOf_cons, hrc]
      have ih1 := ih (by
        intro e he
        apply h
        rw [GetControllerOf_cons]
        simp [hrc, he])
      simp [upsertOwnerRef, hr, ih1]

/-- After an admitted stamping the controller of the object is a reference to the
parent, when the parent reference refers to itself. -/
theorem GetControllerOf_upsert (ref : OwnerReference) (refs : List OwnerReference)
    (h : ∀ e, GetControllerOf refs = some e → referSameObject e ref = true)
    (hc : ref.Controller = some true) (hself : referSameObject ref ref = true) :
    ∀ e, GetControllerOf (upsertOwnerRef ref refs) = some e →
      referSameObject e ref = true := by
  induction refs with
  | nil =>
    intro e he
    simp [upsertOwnerRef, GetControllerOf_cons, hc] at he
    rw [← he]; exact hself
  | cons r rs ih =>
    intro e he
    by_cases hr : referSameObject r ref = true
    · simp [upsertOwnerRef, hr, GetControllerOf_cons, hc] at he
      rw [← he]; exact hself
    · have hrc : ¬ r.Controller = some true := by
        intro hrc
        apply hr
        apply h
        simp [GetControllerOf_cons, hrc]
      have hup : upsertOwnerRef ref (r :: rs) = r :: upsertOwnerRef ref rs := by
        simp [upsertOwnerRef, hr]
      rw [hup, GetControllerOf_cons] at he
      simp only [hrc, if_false] at he
      refine ih ?_ e he
      intro e1 he1
      apply h
      rw [GetControllerOf_cons]
      simp [hrc, he1]

theorem assignFields_idem {m : MCPServer} {d d1 : Deployment}
    (h : assignFields m d = some d1) : assignFields m d1 = some d1 := by
  obtain ⟨c0, cs, p0, ps, -, -, hd1⟩ := assignFields_some h
  subst hd1
  rfl

theorem assignFields_SetOwnerReferences {m : MCPServer} {d d1 : Deployment}
    (refs : List OwnerReference) (h : assignFields m d = some d1) :
    assignFields m (d.SetOwnerReferences refs) = some (d1.SetOwnerReferences refs) := by
  obtain ⟨c0, cs, p0, ps, hc, hp, hd1⟩ := assignFields_some h
  subst hd1
  unfold assignFields
  simp [Deployment.SetOwnerReferences, hc, hp]

/-- A second run of the callback on its own output, if it succeeds, changes nothing. -/
theorem mutateFn_idem {scheme : Scheme} {m : MCPServer} {d d1 d2 : Deployment}
    (h1 : mutateFn scheme m d = .ok d1) (h2 : mutateFn scheme m d1 = .ok d2) : d2 = d1 := by
  obtain ⟨e1, ha1, hs1⟩ := mutateFn_ok h1
  obtain ⟨gvk, hg, hd1, -⟩ := SetControllerReference_ok hs1
  obtain ⟨e2, ha2, hs2⟩ := mutateFn_ok h2
  obtain ⟨gvk2, hg2, hd2, hsame2⟩ := SetControllerReference_ok hs2
  rw [hg] at hg2
  injection hg2 with hg2
  subst hg2
  have he2 : e2 = d1 := by
    have := assignFields_SetOwnerReferences
      (upsertOwnerRef (newControllerRef m gvk) e1.ObjectMeta.OwnerReferences)
      (assignFields_idem ha1)
    rw [← hd1] at this
    rw [this] at ha2
    injection ha2 with ha2
    exact ha2.symm
  subst he2
  rw [hd2]
  have hrefs : e2.ObjectMeta.OwnerReferences =
      upsertOwnerRef (newControllerRef m gvk) e1.ObjectMeta.OwnerReferences := by
    rw [hd1]; rfl
  rw [hrefs] at hsame2 ⊢
  rw [upsertOwnerRef_idem _ _ hsame2 rfl]
  rw [hd1]
  rfl

/-- `CreateOrUpdate` only ever touches the Deployments of the cluster. -/
theorem CreateOrUpdate_frame (faults : Faults) (c : Cluster) (obj : Deployment)
    (f : Deployment → Res Deployment) :
    (CreateOrUpdate faults c obj f).cluster.MCPServers = c.MCPServers ∧
    (CreateOrUpdate faults c obj f).cluster.Services = c.Services := by
  rcases hget : GetDeployment faults c (ObjectKeyFromObject obj.ObjectMeta) with e | existing
  · cases e with
    | NotFound k1 =>
      rcases hm : mutate f (ObjectKeyFromObject obj.ObjectMeta) obj with obj1 | e | _
      · rcases hc : CreateDeployment faults c obj1 with e | c1
        · simp [CreateOrUpdate, hget, hm, hc]
        · have hc1 := CreateDeployment_ok hc
          simp [CreateOrUpdate, hget, hm, hc, hc1]
      · simp [CreateOrUpdate, hget, hm]
      · simp [CreateOrUpdate, hget, hm]
    | _ => simp [CreateOrUpdate, hget]
  · rcases hm : mutate f (ObjectKeyFromObject obj.ObjectMeta) existing with obj1 | e | _
    · by_cases heq : existing = obj1
      · subst heq
        simp [CreateOrUpdate, hget, hm]
      · rcases hu : UpdateDeployment faults c obj1 with e | c1
        · simp [CreateOrUpdate, hget, hm, hu, heq]
        · obtain ⟨-, hc1⟩ := UpdateDeployment_ok hu
          simp [CreateOrUpdate, hget, hm, hu, heq, hc1]
    · simp [CreateOrUpdate, hget, hm]
    · simp [CreateOrUpdate, hget, hm]

/-- `Reconcile` never writes an MCPServer (neither spec nor status) nor a Service. -/
theorem Reconcile_frame (scheme : Scheme) (faults : Faults) (c : Cluster) (req : Request) :
    (Reconcile scheme faults c req).cluster.MCPServers = c.MCPServers ∧
    (Reconcile scheme faults c req).cluster.Services = c.Services := by
  rcases hget : GetMCPServer faults c req.NamespacedName with e | m
  · simp [Reconcile, hget]
  · rw [(Reconcile_present scheme hget).2]
    exact CreateOrUpdate_frame _ _ _ _

/-- When the stored object is a fixed point of the callback (as far as the callback
succeeds), `CreateOrUpdate` issues no write and leaves the cluster as it is. -/
theorem CreateOrUpdate_noop (faults : Faults) {c : Cluster} {obj d1 : Deployment}
    {f : Deployment → Res Deployment}
    (hfind : findDeployment c (ObjectKeyFromObject obj.ObjectMeta) = some d1)
    (hfix : ∀ d2, f d1 = .ok d2 → d2 = d1) :
    (CreateOrUpdate faults c obj f).calls = [] ∧
    (CreateOrUpdate faults c obj f).cluster = c := by
  rcases hget : GetDeployment faults c (ObjectKeyFromObject obj.ObjectMeta) with e | existing
  · cases e with
    | NotFound k1 =>
      have hnone := GetDeployment_notFound hget
      rw [hnone] at hfind
      cases hfind
    | _ => simp [CreateOrUpdate, hget]
  · have hsome := GetDeployment_ok hget
    rw [hsome] at hfind
    injection hfind with hfind
    subst hfind
    rcases hm : mutate f (ObjectKeyFromObject obj.ObjectMeta) existing with obj1 | e | _
    · obtain ⟨hf, -⟩ := mutate_ok hm
      have := hfix obj1 hf
      subst this
      simp [CreateOrUpdate, hget, hm]
    · simp [CreateOrUpdate, hget, hm]
    · simp [CreateOrUpdate, hget, hm]

theorem SetControllerReference_validate {m : MCPServer} {d d1 : Deployment}
    {scheme : Scheme} (h : SetControllerReference m d scheme = .ok d1) :
    validateOwner m.ObjectMeta d.ObjectMeta = none := by
  unfold SetControllerReference at h
  split at h
  · cases h
  · assumption

theorem SetControllerReference_intro {m : MCPServer} {d : Deployment} {scheme : Scheme}
    {gvk : GroupVersionKind}
    (hv : validateOwner m.ObjectMeta d.ObjectMeta = none)
    (hg : GVKForObject scheme = some gvk)
    (hsame : ∀ e, GetControllerOf d.ObjectMeta.OwnerReferences = some e →
      referSameObject e (newControllerRef m gvk) = true) :
    SetControllerReference m d scheme = .ok (d.SetOwnerReferences
      (upsertOwnerRef (newControllerRef m gvk) d.ObjectMeta.OwnerReferences)) := by
  unfold SetControllerReference
  rw [hv, hg]
  cases hc : GetControllerOf d.ObjectMeta.OwnerReferences with
  | none => rfl
  | some e => simp [hsame e hc]

theorem validateOwner_congr (owner a b : ObjectMeta) (h : a.Namespace = b.Namespace) :
    validateOwner owner a = validateOwner owner b := by
  unfold validateOwner
  rw [h]

theorem newControllerRef_self {scheme : Scheme} {gvk : GroupVersionKind} (m : MCPServer)
    (hg : GVKForObject scheme = some gvk)
    (hparse : ∀ gv ∈ scheme.MCPServerGVs, (ParseGroupVersion gv.String).isSome) :
    referSameObject (newControllerRef m gvk) (newControllerRef m gvk) = true := by
  unfold GVKForObject at hg
  split at hg
  · rename_i gv hgv
    injection hg with hg
    subst hg
    have hp := hparse gv (by rw [hgv]; simp)
    obtain ⟨x, hx⟩ := Option.isSome_iff_exists.mp hp
    have hx1 : ParseGroupVersion (newControllerRef m
        { Group := gv.Group, Version := gv.Version, Kind := "MCPServer" }).APIVersion = some x := hx
    unfold referSameObject
    simp [hx1]
  · cases hg

/-- The output of the callback is a fixed point of the callback when the parent
reference refers to itself. -/
theorem mutateFn_fix {scheme : Scheme} {m : MCPServer} {d d1 : Deployment}
    (h1 : mutateFn scheme m d = .ok d1)
    (hparse : ∀ gv ∈ scheme.MCPServerGVs, (ParseGroupVersion gv.String).isSome) :
    mutateFn scheme m d1 = .ok d1 := by
  obtain ⟨e1, ha1, hs1⟩ := mutateFn_ok h1
  obtain ⟨gvk, hg, hd1, hsame⟩ := SetControllerReference_ok hs1
  have hv := SetControllerReference_validate hs1
  have hself := newControllerRef_self m hg hparse
  have ha2 : assignFields m d1 = some d1 := by
    have := assignFields_SetOwnerReferences
      (upsertOwnerRef (newControllerRef m gvk) e1.ObjectMeta.OwnerReferences)
      (assignFields_idem ha1)
    rw [← hd1] at this
    exact this
  have hrefs : d1.ObjectMeta.OwnerReferences =
      upsertOwnerRef (newControllerRef m gvk) e1.ObjectMeta.OwnerReferences := by
    rw [hd1]; rfl
  have hv1 : validateOwner m.ObjectMeta d1.ObjectMeta = none := by
    rw [validateOwner_congr m.ObjectMeta d1.ObjectMeta e1.ObjectMeta (by rw [hd1]; rfl)]
    exact hv
  have hsame1 : ∀ e, GetControllerOf d1.ObjectMeta.OwnerReferences = some e →
      referSameObject e (newControllerRef m gvk) = true := by
    rw [hrefs]
    exact GetControllerOf_upsert _ _ hsame rfl hself
  have hs2 := SetControllerReference_intro hv1 hg hsame1
  have hd2 : d1.SetOwnerReferences
      (upsertOwnerRef (newControllerRef m gvk) d1.ObjectMeta.OwnerReferences) = d1 := by
    rw [hrefs, upsertOwnerRef_idem _ _ (by rw [← hrefs]; exact hsame1) rfl, ← hrefs]
    rfl
  rw [hd2] at hs2
  unfold mutateFn
  rw [ha2]
  simp only [hs2]

/-- With no failing read, a stored fixed point of the callback makes `CreateOrUpdate`
report that nothing changed. -/
theorem CreateOrUpdate_unchanged {faults : Faults} {c : Cluster} {obj d1 : Deployment}
    {f : Deployment → Res Deployment}
    (hfault : faults.GetDeployment = none)
    (hfind : findDeployment c (ObjectKeyFromObject obj.ObjectMeta) = some d1)
    (hfix : f d1 = .ok d1) :
    (CreateOrUpdate faults c obj f).result = .ok .None := by
  have hget : GetDeployment faults c (ObjectKeyFromObject obj.ObjectMeta) = .ok d1 := by
    simp [GetDeployment, hfault, hfind]
  have hk := findDeployment_key hfind
  have hm : mutate f (ObjectKeyFromObject obj.ObjectMeta) d1 = .ok d1 := by
    simp [mutate, hfix, hk]
  simp [CreateOrUpdate, hget, hm]

theorem Reconcile_get_error (scheme : Scheme) {faults : Faults} {c : Cluster}
    {req : Request} {e : Err} (h : GetMCPServer faults c req.NamespacedName = .error e) :
    Reconcile scheme faults c req =
      { outcome := .returned { Requeue := false, RequeueAfter := 0 } (IgnoreNotFound e),
        cluster := c, calls := [] } := by
  simp [Reconcile, h]

theorem Reconcile_present_ok (scheme : Scheme) {faults : Faults} {c : Cluster}
    {req : Request} {m : MCPServer} {op : OperationResult}
    (hget : GetMCPServer faults c req.NamespacedName = .ok m)
    (hres : (CreateOrUpdate faults c (stampedDeployment scheme m)
      (mutateFn scheme m)).result = .ok op) :
    (Reconcile scheme faults c req).outcome =
      .returned { Requeue := false, RequeueAfter := 0 } none := by
  simp [Reconcile, hget, hres]

theorem Reconcile_present_err (scheme : Scheme) {faults : Faults} {c : Cluster}
    {req : Request} {m : MCPServer} {e : Err}
    (hget : GetMCPServer faults c req.NamespacedName = .ok m)
    (hres : (CreateOrUpdate faults c (stampedDeployment scheme m)
      (mutateFn scheme m)).result = .err e) :
    (Reconcile scheme faults c req).outcome =
      .returned { Requeue := false, RequeueAfter := 0 } (some e) := by
  simp [Reconcile, hget, hres]

theorem Reconcile_present_panicked (scheme : Scheme) {faults : Faults} {c : Cluster}
    {req : Request} {m : MCPServer}
    (hget : GetMCPServer faults c req.NamespacedName = .ok m)
    (hres : (CreateOrUpdate faults c (stampedDeployment scheme m)
      (mutateFn scheme m)).result = .panicked) :
    (Reconcile scheme faults c req).outcome = .panicked := by
  simp [Reconcile, hget, hres]

/-- The result of `CreateOrUpdate` on a stored object that the callback rejects: the
callback's error or panic, or the error of the failed read. -/
theorem CreateOrUpdate_rejected (faults : Faults) {c : Cluster} {obj existing : Deployment}
    {f : Deployment → Res Deployment}
    (hfind : findDeployment c (ObjectKeyFromObject obj.ObjectMeta) = some existing)
    (hrej : ∀ d2, f existing ≠ .ok d2) :
    (∃ e, (CreateOrUpdate faults c obj f).result = .err e) ∨
    ((CreateOrUpdate faults c obj f).result = .panicked ∧ f existing = .panicked) := by
  rcases hget : GetDeployment faults c (ObjectKeyFromObject obj.ObjectMeta) with e | d
  · cases e with
    | NotFound k1 =>
      have hnone := GetDeployment_notFound hget
      rw [hnone] at hfind
      cases hfind
    | _ => exact Or.inl ⟨_, by simp only [CreateOrUpdate, hget]; rfl⟩
  · have hsome := GetDeployment_ok hget
    rw [hsome] at hfind
    injection hfind with hfind
    subst hfind
    rcases hf : f d with obj1 | e | _
    · exact absurd hf (hrej obj1)
    · exact Or.inl ⟨e, by simp [CreateOrUpdate, hget, mutate, hf]⟩
    · exact Or.inr ⟨by simp [CreateOrUpdate, hget, mutate, hf], rfl⟩

/-- The callback refuses a Deployment whose controller is not the parent. -/
theorem mutateFn_foreign {scheme : Scheme} {m : MCPServer} {existing : Deployment}
    {e : OwnerReference}
    (hctrl : GetControllerOf existing.ObjectMeta.OwnerReferences = some e)
    (hforeign : ∀ gvk, GVKForObject scheme = some gvk →
      referSameObject e (newControllerRef m gvk) = false) :
    ∀ d2, mutateFn scheme m existing ≠ .ok d2 := by
  intro d2 h
  obtain ⟨d1, h1, h2⟩ := mutateFn_ok h
  obtain ⟨gvk, hg, -, hsame⟩ := SetControllerReference_ok h2
  rw [assignFields_meta h1] at hsame
  have := hsame e hctrl
  rw [hforeign gvk hg] at this
  cases this

theorem mutateFn_panicked {scheme : Scheme} {m : MCPServer} {d : Deployment}
    (h : mutateFn scheme m d = .panicked) : assignFields m d = none := by
  unfold mutateFn at h
  split at h
  · assumption
  · split at h <;> cases h

theorem wellShaped_deploymentFor (m : MCPServer) : WellShaped (deploymentFor m) := by
  unfold WellShaped deploymentFor
  simp

theorem wellShaped_stampedDeployment (scheme : Scheme) (m : MCPServer) :
    WellShaped (stampedDeployment scheme m) := by
  unfold stampedDeployment
  split
  · rename_i d hd
    obtain ⟨gvk, -, hd1, -⟩ := SetControllerReference_ok hd
    rw [hd1]
    exact wellShaped_deploymentFor m
  · exact wellShaped_deploymentFor m

theorem wellShaped_mutateFn {scheme : Scheme} {m : MCPServer} {d d2 : Deployment}
    (h : mutateFn scheme m d = .ok d2) (hw : WellShaped d) : WellShaped d2 := by
  obtain ⟨d1, h1, h2⟩ := mutateFn_ok h
  obtain ⟨c0, cs, p0, ps, hc, hp, hd1⟩ := assignFields_some h1
  obtain ⟨gvk, -, hd2, -⟩ := SetControllerReference_ok h2
  subst hd2 hd1
  unfold WellShaped at hw ⊢
  rw [hc] at hw
  obtain ⟨hlen, hports⟩ := hw
  have hp0 := hports c0 (by simp)
  rw [hp] at hp0
  simp only [Deployment.SetOwnerReferences]
  constructor
  · simpa using hlen
  · intro k hk
    simp only [List.mem_cons] at hk
    rcases hk with hk | hk
    · subst hk
      simpa using hp0
    · exact hports k (by simp [hk])

theorem wellShaped_no_panic {scheme : Scheme} {m : MCPServer} {d : Deployment}
    (hw : WellShaped d) : mutateFn scheme m d ≠ .panicked := by
  intro h
  have ha := mutateFn_panicked h
  unfold WellShaped at hw
  unfold assignFields at ha
  split at ha
  · rename_i hc
    rw [hc] at hw
    simp at hw
  · rename_i c0 cs hc
    split at ha
    · rename_i hp
      have := hw.2 c0 (by rw [hc]; simp)
      rw [hp] at this
      simp at this
    · cases ha

/-- Every Deployment in the cluster after `CreateOrUpdate` was there before or is the
callback's output on the given object or on a Deployment that was there before. -/
theorem CreateOrUpdate_deployments (faults : Faults) (c : Cluster) (obj : Deployment)
    (f : Deployment → Res Deployment) :
    ∀ d ∈ (CreateOrUpdate faults c obj f).cluster.Deployments,
      d ∈ c.Deployments ∨ ∃ base, (base = obj ∨ base ∈ c.Deployments) ∧ f base = .ok d := by
  intro d hd
  rcases hget : GetDeployment faults c (ObjectKeyFromObject obj.ObjectMeta) with e | existing
  · cases e with
    | NotFound k1 =>
      rcases hm : mutate f (ObjectKeyFromObject obj.ObjectMeta) obj with obj1 | e | _
      · obtain ⟨hf, -⟩ := mutate_ok hm
        rcases hc : CreateDeployment faults c obj1 with e | c1
        · simp only [CreateOrUpdate, hget, hm, hc] at hd
          exact Or.inl hd
        · have hc1 := CreateDeployment_ok hc
          simp only [CreateOrUpdate, hget, hm, hc] at hd
          rw [hc1] at hd
          simp only [List.mem_append, List.mem_singleton] at hd
          rcases hd with hd | hd
          · exact Or.inl hd
          · subst hd
            exact Or.inr ⟨obj, Or.inl rfl, hf⟩
      · simp only [CreateOrUpdate, hget, hm] at hd
        exact Or.inl hd
      · simp only [CreateOrUpdate, hget, hm] at hd
        exact Or.inl hd
    | _ =>
      simp only [CreateOrUpdate, hget] at hd
      exact Or.inl hd
  · have hsome := GetDeployment_ok hget
    have hmem : existing ∈ c.Deployments := List.mem_of_find?_eq_some hsome
    rcases hm : mutate f (ObjectKeyFromObject obj.ObjectMeta) existing with obj1 | e | _
    · obtain ⟨hf, -⟩ := mutate_ok hm
      by_cases heq : existing = obj1
      · subst heq
        simp only [CreateOrUpdate, hget, hm, if_true] at hd
        exact Or.inl hd
      · rcases hu : UpdateDeployment faults c obj1 with e | c1
        · simp only [CreateOrUpdate, hget, hm, hu, heq, if_false] at hd
          exact Or.inl hd
        · obtain ⟨-, hc1⟩ := UpdateDeployment_ok hu
          simp only [CreateOrUpdate, hget, hm, hu, heq, if_false] at hd
          rw [hc1] at hd
          simp only [List.mem_map] at hd
          obtain ⟨d0, hd0, hdd⟩ := hd
          split at hdd
          · subst hdd
            exact Or.inr ⟨existing, Or.inr hmem, hf⟩
          · subst hdd
            exact Or.inl hd0
    · simp only [CreateOrUpdate, hget, hm] at hd
      exact Or.inl hd
    · simp only [CreateOrUpdate, hget, hm] at hd
      exact Or.inl hd

theorem mutate_panicked {f : Deployment → Res Deployment} {key : NamespacedName}
    {obj : Deployment} (h : mutate f key obj = .panicked) : f obj = .panicked := by
  unfold mutate at h
  split at h
  · split at h <;> cases h
  · cases h
  · assumption

/-- A panic of `CreateOrUpdate` is a panic of the callback, on the given object or on
a stored Deployment. -/
theorem CreateOrUpdate_panicked {faults : Faults} {c : Cluster} {obj : Deployment}
    {f : Deployment → Res Deployment}
    (h : (CreateOrUpdate faults c obj f).result = .panicked) :
    ∃ base, (base = obj ∨ base ∈ c.Deployments) ∧ f base = .panicked := by
  rcases hget : GetDeployment faults c (ObjectKeyFromObject obj.ObjectMeta) with e | existing
  · cases e with
    | NotFound k1 =>
      rcases hm : mutate f (ObjectKeyFromObject obj.ObjectMeta) obj with obj1 | e | _
      · rcases hc : CreateDeployment faults c obj1 with e | c1
        · simp [CreateOrUpdate, hget, hm, hc] at h
        · simp [CreateOrUpdate, hget, hm, hc] at h
      · simp [CreateOrUpdate, hget, hm] at h
      · exact ⟨obj, Or.inl rfl, mutate_panicked hm⟩
    | _ => simp [CreateOrUpdate, hget] at h
  · have hsome := GetDeployment_ok hget
    have hmem : existing ∈ c.Deployments := List.mem_of_find?_eq_some hsome
    rcases hm : mutate f (ObjectKeyFromObject obj.ObjectMeta) existing with obj1 | e | _
    · by_cases heq : existing = obj1
      · subst heq
        simp [CreateOrUpdate, hget, hm] at h
      · rcases hu : UpdateDeployment faults c obj1 with e | c1
        · simp [CreateOrUpdate, hget, hm, heq, hu] at h
        · simp [CreateOrUpdate, hget, hm, heq, hu] at h
    · simp [CreateOrUpdate, hget, hm] at h
    · exact ⟨existing, Or.inr hmem, mutate_panicked hm⟩

/-- Reconcile keeps every stored Deployment well shaped. -/
theorem Reconcile_wellShaped (scheme : Scheme) (faults : Faults) (c : Cluster)
    (req : Request) (h : ∀ d ∈ c.Deployments, WellShaped d) :
    ∀ d ∈ (Reconcile scheme faults c req).cluster.Deployments, WellShaped d := by
  rcases hget : GetMCPServer faults c req.NamespacedName with e | m
  · rw [Reconcile_get_error scheme hget]
    exact h
  · rw [(Reconcile_present scheme hget).2]
    intro d hd
    rcases CreateOrUpdate_deployments _ _ _ _ d hd with hd | ⟨base, hbase, hf⟩
    · exact h d hd
    · rcases hbase with hbase | hbase
      · subst hbase
        exact wellShaped_mutateFn hf (wellShaped_stampedDeployment scheme m)
      · exact wellShaped_mutateFn hf (h base hbase)

/-- Reconcile does not panic on a cluster whose Deployments are well shaped. -/
theorem Reconcile_no_panic (scheme : Scheme) (faults : Faults) (c : Cluster)
    (req : Request) (h : ∀ d ∈ c.Deployments, WellShaped d) :
    (Reconcile scheme faults c req).outcome ≠ .panicked := by
  intro hp
  rcases hget : GetMCPServer faults c req.NamespacedName with e | m
  · rw [Reconcile_get_error scheme hget] at hp
    cases hp
  · rcases hres : (CreateOrUpdate faults c (stampedDeployment scheme m)
        (mutateFn scheme m)).result with op | e | _
    · rw [Reconcile_present_ok scheme hget hres] at hp
      cases hp
    · rw [Reconcile_present_err scheme hget hres] at hp
      cases hp
    · obtain ⟨base, hbase, hf⟩ := CreateOrUpdate_panicked hres
      rcases hbase with hbase | hbase
      · subst hbase
        exact wellShaped_no_panic (wellShaped_stampedDeployment scheme m) hf
      · exact wellShaped_no_panic (h base hbase) hf

theorem Reachable_wellShaped {scheme : Scheme} {c : Cluster} (h : Reachable scheme c) :
    ∀ d ∈ c.Deployments, WellShaped d := by
  induction h with
  | start c h0 =>
    intro d hd
    rw [h0] at hd
    cases hd
  | reconcile c faults req _ ih => exact Reconcile_wellShaped scheme faults c req ih
  | parents c ms _ ih => exact ih

/-! ## Claims -/

/-- C1: for every parent present in the store and every prior store state (in
particular when the same-named Deployment is absent, or exists and is controlled by
this parent), if Reconcile returns no error then the Deployment stored under the
parent's (namespace, name) has replica count spec.replicas, first-container image
spec.image and first-container first containerPort spec.port. -/
theorem reconcile_converges_deployment (scheme : Scheme) (faults : Faults) (c : Cluster)
    (req : Request) (mcpServer : MCPServer) (r : Result)
    (hparent : findMCPServer c req.NamespacedName = some mcpServer)
    (hok : (Reconcile scheme faults c req).outcome = .returned r none) :
    ∃ d, findDeployment (Reconcile scheme faults c req).cluster req.NamespacedName = some d ∧
      d.Spec.Replicas = some mcpServer.Spec.Replicas ∧
      d.Spec.Template.Spec.Containers.head?.map (fun k => k.Image)
        = some mcpServer.Spec.Image ∧
      (d.Spec.Template.Spec.Containers.head?.bind (fun k => k.Ports.head?)).map
        (fun p => p.ContainerPort) = some mcpServer.Spec.Port := by
  obtain ⟨base, obj1, hm, hfind, -⟩ := Reconcile_ok hparent hok
  exact ⟨obj1, hfind, mutateFn_fields hm⟩

/-- Witness for C1: the parent of the test "should create a Deployment with correct
spec" (image test-image:v1, replicas 2, port 8080) in a store without the Deployment,
and the same parent edited to 3 replicas in the store that holds its Deployment. -/
theorem reconcile_converges_deployment_witness :
    (∃ d, findDeployment (Reconcile theScheme noFaults testCluster testRequest).cluster
        testRequest.NamespacedName = some d ∧
      d.Spec.Replicas = some 2 ∧
      d.Spec.Template.Spec.Containers.head?.map (fun k => k.Image) = some "test-image:v1" ∧
      (d.Spec.Template.Spec.Containers.head?.bind (fun k => k.Ports.head?)).map
        (fun p => p.ContainerPort) = some 8080) ∧
    (∃ d, findDeployment (Reconcile theScheme noFaults scaledCluster testRequest).cluster
        testRequest.NamespacedName = some d ∧
      d.Spec.Replicas = some 3 ∧
      d.Spec.Template.Spec.Containers.head?.map (fun k => k.Image) = some "test-image:v1" ∧
      (d.Spec.Template.Spec.Containers.head?.bind (fun k => k.Ports.head?)).map
        (fun p => p.ContainerPort) = some 8080) :=
  ⟨reconcile_converges_deployment theScheme noFaults testCluster testRequest testServer
      { Requeue := false, RequeueAfter := 0 } (by decide) (by decide),
   reconcile_converges_deployment theScheme noFaults scaledCluster testRequest
      { testServer with Spec := { testServer.Spec with Replicas := 3 } }
      { Requeue := false, RequeueAfter := 0 } (by decide) (by decide)⟩

/-- C6: when the parent is absent from the store, Reconcile returns the empty result
with a nil error; when the read of the parent fails with any other error, Reconcile
returns that error unchanged; in both cases it issues no write and the store is left
as it was. -/
theorem reconcile_parent_get_error (scheme : Scheme) (c : Cluster) (req : Request) :
    (∀ faults, faults.GetMCPServer = none → findMCPServer c req.NamespacedName = none →
      GetMCPServer faults c req.NamespacedName = .error (.NotFound req.NamespacedName) ∧
      (Reconcile scheme faults c req).outcome =
        .returned { Requeue := false, RequeueAfter := 0 } none ∧
      (Reconcile scheme faults c req).calls = [] ∧
      (Reconcile scheme faults c req).cluster = c) ∧
    (∀ faults err, GetMCPServer faults c req.NamespacedName = .error err →
      (∀ k, err ≠ .NotFound k) →
      (Reconcile scheme faults c req).outcome =
        .returned { Requeue := false, RequeueAfter := 0 } (some err) ∧
      (Reconcile scheme faults c req).calls = [] ∧
      (Reconcile scheme faults c req).cluster = c) := by
  constructor
  · intro faults hf hnone
    have hget : GetMCPServer faults c req.NamespacedName
        = .error (.NotFound req.NamespacedName) := by
      simp [GetMCPServer, hf, hnone]
    refine ⟨hget, ?_, ?_, ?_⟩ <;> simp [Reconcile, hget, IgnoreNotFound]
  · intro faults err hget hne
    have hign : IgnoreNotFound err = some err := by
      cases err with
      | NotFound k => exact absurd rfl (hne k)
      | _ => rfl
    refine ⟨?_, ?_, ?_⟩ <;> simp [Reconcile, hget, hign]

/-- Witness for C6: the request of the test parent against an empty cluster, and
against the test cluster when the read of the parent times out. -/
theorem reconcile_parent_get_error_witness :
    ((Reconcile theScheme noFaults { MCPServers := [], Deployments := [], Services := [] }
        testRequest).outcome = .returned { Requeue := false, RequeueAfter := 0 } none ∧
      (Reconcile theScheme noFaults { MCPServers := [], Deployments := [], Services := [] }
        testRequest).calls = [] ∧
      (Reconcile theScheme noFaults { MCPServers := [], Deployments := [], Services := [] }
        testRequest).cluster = { MCPServers := [], Deployments := [], Services := [] }) ∧
    ((Reconcile theScheme { noFaults with GetMCPServer := some "timeout" } testCluster
        testRequest).outcome
        = .returned { Requeue := false, RequeueAfter := 0 } (some (.Server "timeout")) ∧
      (Reconcile theScheme { noFaults with GetMCPServer := some "timeout" } testCluster
        testRequest).calls = [] ∧
      (Reconcile theScheme { noFaults with GetMCPServer := some "timeout" } testCluster
        testRequest).cluster = testCluster) :=
  ⟨((reconcile_parent_get_error theScheme
        { MCPServers := [], Deployments := [], Services := [] } testRequest).1
      noFaults rfl (by decide)).2,
   (reconcile_parent_get_error theScheme testCluster testRequest).2
      { noFaults with GetMCPServer := some "timeout" } (.Server "timeout") rfl
      (by intro k h; cases h)⟩

/-- C3: every Deployment that Reconcile creates in the store carries exactly one owner
reference, and that reference points at the parent: kind MCPServer, the parent's name,
the parent's UID, controller = true. The reference stamped before CreateOrUpdate and
the one re-stamped inside the callback do not accumulate. -/
theorem created_child_single_owner (scheme : Scheme) (faults : Faults) (c : Cluster)
    (req : Request) (key : NamespacedName) (d : Deployment)
    (hcreate : Call.Create key ∈ (Reconcile scheme faults c req).calls)
    (hstored : findDeployment (Reconcile scheme faults c req).cluster key = some d) :
    ∃ mcpServer ref, findMCPServer c req.NamespacedName = some mcpServer ∧
      key = req.NamespacedName ∧
      findDeployment c key = none ∧
      d.ObjectMeta.OwnerReferences = [ref] ∧
      ref.Kind = "MCPServer" ∧
      ref.Name = mcpServer.ObjectMeta.Name ∧
      ref.UID = mcpServer.ObjectMeta.UID ∧
      ref.Controller = some true := by
  rcases hget : GetMCPServer faults c req.NamespacedName with e | m
  · simp [Reconcile, hget] at hcreate
  · obtain ⟨-, hparent⟩ := GetMCPServer_inv hget
    obtain ⟨hcalls, hcluster⟩ := Reconcile_present scheme hget
    rw [hcalls] at hcreate
    rw [hcluster] at hstored
    have hkey : ObjectKeyFromObject (stampedDeployment scheme m).ObjectMeta
        = req.NamespacedName := by
      rw [stampedDeployment_key]; exact findMCPServer_key hparent
    obtain ⟨hk, hnone, obj1, hf, hk1, hcl⟩ := CreateOrUpdate_create hcreate
    rw [hkey] at hk hnone hk1
    subst hk
    have hd : d = obj1 := by
      rcases hcl with hcl | hcl
      · rw [hcl, hnone] at hstored
        cases hstored
      · rw [hcl] at hstored
        have := find_append_new c.Deployments obj1 _ hk1 hnone
        unfold findDeployment at hstored
        rw [this] at hstored
        injection hstored with hstored
        exact hstored.symm
    subst hd
    obtain ⟨d1, h1, h2⟩ := mutateFn_ok hf
    obtain ⟨gvk, hg, hd2, hsame⟩ := SetControllerReference_ok h2
    have hmeta := assignFields_meta h1
    rw [stampedDeployment_refs m hg] at hmeta
    have hrefs : d1.ObjectMeta.OwnerReferences = [newControllerRef m gvk] := by
      rw [hmeta]; rfl
    have hself : referSameObject (newControllerRef m gvk) (newControllerRef m gvk) = true := by
      apply hsame
      rw [hrefs]
      rfl
    have hkind : gvk.Kind = "MCPServer" := by
      unfold GVKForObject at hg
      split at hg
      · injection hg with hg
        rw [← hg]
      · cases hg
    refine ⟨m, newControllerRef m gvk, hparent, rfl, hnone, ?_, hkind, rfl, rfl, rfl⟩
    rw [hd2, hrefs]
    simp [Deployment.SetOwnerReferences, upsertOwnerRef, hself]

/-- Witness for C3: the Deployment created for the test parent. -/
theorem created_child_single_owner_witness :
    ∃ mcpServer ref, findMCPServer testCluster testRequest.NamespacedName = some mcpServer ∧
      testRequest.NamespacedName = testRequest.NamespacedName ∧
      findDeployment testCluster testRequest.NamespacedName = none ∧
      (stampedDeployment theScheme testServer).ObjectMeta.OwnerReferences = [ref] ∧
      ref.Kind = "MCPServer" ∧
      ref.Name = mcpServer.ObjectMeta.Name ∧
      ref.UID = mcpServer.ObjectMeta.UID ∧
      ref.Controller = some true :=
  created_child_single_owner theScheme noFaults testCluster testRequest
    testRequest.NamespacedName (stampedDeployment theScheme testServer)
    (by decide) (by decide)

/-- C5: Reconcile is idempotent on a converged parent. If a first Reconcile returns no
error and neither the parent nor the store is changed in between, a second Reconcile
for the same request issues no create and no update call and leaves the store
identical, whatever calls fail in the second run; and when no read fails and the
parent's apiVersion parses, the second run returns no error (CreateOrUpdate finds the
fetched Deployment equal to the mutated one). -/
theorem reconcile_idempotent (scheme : Scheme) (faults1 faults2 : Faults) (c : Cluster)
    (req : Request) (r : Result)
    (hok : (Reconcile scheme faults1 c req).outcome = .returned r none) :
    (Reconcile scheme faults2 (Reconcile scheme faults1 c req).cluster req).calls = [] ∧
    (Reconcile scheme faults2 (Reconcile scheme faults1 c req).cluster req).cluster
      = (Reconcile scheme faults1 c req).cluster ∧
    (faults2.GetMCPServer = none → faults2.GetDeployment = none →
      (∀ gv ∈ scheme.MCPServerGVs, (ParseGroupVersion gv.String).isSome) →
      (Reconcile scheme faults2 (Reconcile scheme faults1 c req).cluster req).outcome
        = .returned { Requeue := false, RequeueAfter := 0 } none) := by
  have hframe := (Reconcile_frame scheme faults1 c req).1
  have hfm : findMCPServer (Reconcile scheme faults1 c req).cluster req.NamespacedName
      = findMCPServer c req.NamespacedName := by
    unfold findMCPServer
    rw [hframe]
  rcases hget2 : GetMCPServer faults2 (Reconcile scheme faults1 c req).cluster
      req.NamespacedName with e | m
  · rw [Reconcile_get_error scheme hget2]
    refine ⟨rfl, rfl, ?_⟩
    intro hf2 _ _
    cases hp : findMCPServer c req.NamespacedName with
    | none =>
      rw [← hfm] at hp
      have : e = .NotFound req.NamespacedName := by
        simp [GetMCPServer, hf2, hp] at hget2
        exact hget2.symm
      subst this
      rfl
    | some m =>
      rw [← hfm] at hp
      rw [GetMCPServer_ok faults2 hf2 hp] at hget2
      cases hget2
  · obtain ⟨-, hparent2⟩ := GetMCPServer_inv hget2
    have hparent : findMCPServer c req.NamespacedName = some m := by
      rw [← hfm]; exact hparent2
    obtain ⟨base, obj1, hm, hfind, -⟩ := Reconcile_ok hparent hok
    have hkey : ObjectKeyFromObject (stampedDeployment scheme m).ObjectMeta
        = req.NamespacedName := by
      rw [stampedDeployment_key]; exact findMCPServer_key hparent
    rw [← hkey] at hfind
    obtain ⟨hcalls, hcluster⟩ := Reconcile_present scheme hget2
    have hnoop := CreateOrUpdate_noop faults2 hfind
      (fun d2 hd2 => mutateFn_idem hm hd2)
    refine ⟨by rw [hcalls]; exact hnoop.1, by rw [hcluster]; exact hnoop.2, ?_⟩
    intro _ hf2 hparse
    exact Reconcile_present_ok scheme hget2
      (CreateOrUpdate_unchanged hf2 hfind (mutateFn_fix hm hparse))

/-- Witness for C5: two reconciliations of the test parent in a row. -/
theorem reconcile_idempotent_witness :
    (Reconcile theScheme noFaults testCluster testRequest).outcome
      = .returned { Requeue := false, RequeueAfter := 0 } none ∧
    (Reconcile theScheme noFaults
        (Reconcile theScheme noFaults testCluster testRequest).cluster testRequest).calls = [] ∧
    (Reconcile theScheme noFaults
        (Reconcile theScheme noFaults testCluster testRequest).cluster testRequest).cluster
      = (Reconcile theScheme noFaults testCluster testRequest).cluster ∧
    (Reconcile theScheme noFaults
        (Reconcile theScheme noFaults testCluster testRequest).cluster testRequest).outcome
      = .returned { Requeue := false, RequeueAfter := 0 } none :=
  have h := reconcile_idempotent theScheme noFaults noFaults testCluster testRequest
    { Requeue := false, RequeueAfter := 0 } (by decide)
  ⟨by decide, h.1, h.2.1, h.2.2 rfl rfl (by decide)⟩

/-- C8, counterexample: the stored Deployment of the parent's name has a controller
owner reference whose UID (uid-0) differs from the parent's (uid-1), yet Reconcile
returns no error, issues an update and rewrites the owner reference to the parent's
UID. Besides, on a foreign-owned Deployment without containers Reconcile does not
return at all: it panics. -/
theorem foreign_uid_is_adopted :
    findDeployment staleCluster testRequest.NamespacedName
      = some (stampedDeployment theScheme oldServer) ∧
    (GetControllerOf (stampedDeployment theScheme oldServer).ObjectMeta.OwnerReferences).map
      (fun e => e.UID) = some "uid-0" ∧
    testServer.ObjectMeta.UID = "uid-1" ∧
    (Reconcile theScheme noFaults staleCluster testRequest).outcome
      = .returned { Requeue := false, RequeueAfter := 0 } none ∧
    (Reconcile theScheme noFaults staleCluster testRequest).calls
      = [Call.Update testRequest.NamespacedName] ∧
    ((findDeployment (Reconcile theScheme noFaults staleCluster testRequest).cluster
        testRequest.NamespacedName).map
      (fun d => d.ObjectMeta.OwnerReferences.map (fun e => e.UID))) = some ["uid-1"] ∧
    (Reconcile theScheme noFaults
      { MCPServers := [testServer], Deployments := [emptyForeignDeployment], Services := [] }
      testRequest).outcome = .panicked := by
  decide

/-- C8, amended: when a Deployment of the parent's (namespace, name) exists and has a
controller owner reference that does not refer to the parent by API group, kind and
name (the comparison `SetControllerReference` makes; the UID is not compared),
Reconcile never succeeds, issues no create or update call and leaves the store, hence
that Deployment, exactly as it was; and when `Containers[0].Ports[0]` of that
Deployment exists, Reconcile returns a non-nil error. -/
theorem foreign_owner_protection (scheme : Scheme) (faults : Faults) (c : Cluster)
    (req : Request) (m : MCPServer) (existing : Deployment) (e : OwnerReference)
    (hparent : findMCPServer c req.NamespacedName = some m)
    (hexisting : findDeployment c req.NamespacedName = some existing)
    (hctrl : GetControllerOf existing.ObjectMeta.OwnerReferences = some e)
    (hforeign : ∀ gvk, GVKForObject scheme = some gvk →
      referSameObject e (newControllerRef m gvk) = false) :
    (Reconcile scheme faults c req).calls = [] ∧
    (Reconcile scheme faults c req).cluster = c ∧
    findDeployment (Reconcile scheme faults c req).cluster req.NamespacedName
      = some existing ∧
    (∀ r, (Reconcile scheme faults c req).outcome ≠ .returned r none) ∧
    ((assignFields m existing).isSome →
      ∃ err, (Reconcile scheme faults c req).outcome
        = .returned { Requeue := false, RequeueAfter := 0 } (some err)) := by
  have hkey : ObjectKeyFromObject (stampedDeployment scheme m).ObjectMeta
      = req.NamespacedName := by
    rw [stampedDeployment_key]; exact findMCPServer_key hparent
  rcases hget : GetMCPServer faults c req.NamespacedName with err | m1
  · rw [Reconcile_get_error scheme hget]
    have herr : ∃ msg, err = .Server msg := by
      unfold GetMCPServer at hget
      split at hget
      · rename_i msg _
        injection hget with hget
        exact ⟨msg, hget.symm⟩
      · rw [hparent] at hget
        cases hget
    obtain ⟨msg, rfl⟩ := herr
    refine ⟨rfl, rfl, hexisting, ?_, fun _ => ⟨_, rfl⟩⟩
    intro r h
    simp [IgnoreNotFound] at h
  · obtain ⟨-, hp⟩ := GetMCPServer_inv hget
    rw [hparent] at hp
    injection hp with hp
    subst hp
    obtain ⟨hcalls, hcluster⟩ := Reconcile_present scheme hget
    have hrej := mutateFn_foreign hctrl hforeign
    rw [← hkey] at hexisting
    have hnoop := CreateOrUpdate_noop faults hexisting
      (fun d2 hd2 => absurd hd2 (hrej d2))
    have hcl : (Reconcile scheme faults c req).cluster = c := by
      rw [hcluster]; exact hnoop.2
    refine ⟨by rw [hcalls]; exact hnoop.1, hcl, by rw [hcl, ← hkey]; exact hexisting, ?_, ?_⟩
    · intro r h
      rcases CreateOrUpdate_rejected faults hexisting hrej with ⟨err, hres⟩ | ⟨hres, -⟩
      · rw [Reconcile_present_err scheme hget hres] at h
        cases h
      · rw [Reconcile_present_panicked scheme hget hres] at h
        cases h
    · intro hsome
      rcases CreateOrUpdate_rejected faults hexisting hrej with ⟨err, hres⟩ | ⟨-, hpan⟩
      · exact ⟨err, Reconcile_present_err scheme hget hres⟩
      · rw [mutateFn_panicked hpan] at hsome
        cases hsome

/-- Witness for C8 as amended: a Deployment controlled by an object of another kind
and name is left alone and Reconcile returns an error. -/
theorem foreign_owner_protection_witness :
    (Reconcile theScheme noFaults
      { MCPServers := [testServer], Deployments := [foreignDeployment], Services := [] }
      testRequest).calls = [] ∧
    (Reconcile theScheme noFaults
      { MCPServers := [testServer], Deployments := [foreignDeployment], Services := [] }
      testRequest).cluster
      = { MCPServers := [testServer], Deployments := [foreignDeployment], Services := [] } ∧
    (∃ err, (Reconcile theScheme noFaults
      { MCPServers := [testServer], Deployments := [foreignDeployment], Services := [] }
      testRequest).outcome = .returned { Requeue := false, RequeueAfter := 0 } (some err)) :=
  have h := foreign_owner_protection theScheme noFaults
    { MCPServers := [testServer], Deployments := [foreignDeployment], Services := [] }
    testRequest testServer foreignDeployment
    { APIVersion := "apps/v1", Kind := "Other", Name := "other", UID := "uid-9",
      Controller := some true, BlockOwnerDeletion := none }
    (by decide) (by decide) (by decide)
    (by
      intro gvk hg
      simp only [GVKForObject, theScheme, Option.some.injEq] at hg
      subst hg
      decide)
  ⟨h.1, h.2.1, h.2.2.2.2 (by decide)⟩

/-- C10: in every cluster reachable by Reconcile calls alone, each stored Deployment
has exactly one container with exactly one port, so a further Reconcile (any request,
any failing calls) never takes the out-of-range branch of `Containers[0]` or
`Containers[0].Ports[0]`, and what it leaves in the store is again of that shape;
whereas on a pre-existing same-named Deployment whose first container declares no
ports, Reconcile panics. -/
theorem update_path_index_safety (scheme : Scheme) (c : Cluster)
    (hreach : Reachable scheme c) :
    (∀ d ∈ c.Deployments, WellShaped d) ∧
    (∀ faults req, (Reconcile scheme faults c req).outcome ≠ .panicked ∧
      ∀ d ∈ (Reconcile scheme faults c req).cluster.Deployments, WellShaped d) ∧
    (findDeployment portlessCluster testRequest.NamespacedName = some portlessDeployment ∧
      portlessDeployment.Spec.Template.Spec.Containers.head?.map (fun k => k.Ports)
        = some [] ∧
      (Reconcile theScheme noFaults portlessCluster testRequest).outcome = .panicked) := by
  have hw := Reachable_wellShaped hreach
  refine ⟨hw, ?_, by decide⟩
  intro faults req
  exact ⟨Reconcile_no_panic scheme faults c req hw, Reconcile_wellShaped scheme faults c req hw⟩

/-- Witness for C10: the cluster reached from the test cluster by one Reconcile, the
parent's replicas then edited to 3. -/
theorem update_path_index_safety_witness :
    (∀ d ∈ scaledCluster.Deployments, WellShaped d) ∧
    (Reconcile theScheme noFaults scaledCluster testRequest).outcome ≠ .panicked ∧
    (Reconcile theScheme noFaults scaledCluster testRequest).calls
      = [Call.Update testRequest.NamespacedName] :=
  have h := update_path_index_safety theScheme scaledCluster
    (Reachable.parents _ _ (Reachable.reconcile testCluster noFaults testRequest
      (Reachable.start testCluster rfl)))
  ⟨h.1, (h.2.1 noFaults testRequest).1, by decide⟩

/-- C2, the code at the failing input: reconciling the test parent in a cluster with
no Service returns no error and leaves the cluster without a Service under the
parent's key, the only write being the creation of the Deployment; and in general
Reconcile leaves the Services of any cluster as they are. -/
theorem reconcile_creates_no_service :
    ((Reconcile theScheme noFaults testCluster testRequest).outcome
      = .returned { Requeue := false, RequeueAfter := 0 } none ∧
    (Reconcile theScheme noFaults testCluster testRequest).calls
      = [Call.Create testRequest.NamespacedName] ∧
    findService (Reconcile theScheme noFaults testCluster testRequest).cluster
      testRequest.NamespacedName = none) ∧
    ∀ (scheme : Scheme) (faults : Faults) (c : Cluster) (req : Request),
      (Reconcile scheme faults c req).cluster.Services = c.Services := by
  refine ⟨by decide, ?_⟩
  intro scheme faults c req
  exact (Reconcile_frame scheme faults c req).2

/-- C4, the code at the failing input: after a successful Reconcile of a freshly
created parent with one replica, whose Deployment has zero ready replicas, the
parent's stored status.phase is still the empty string, not "Pending"; and in general
Reconcile leaves the stored parents, status included, as they are. -/
theorem reconcile_leaves_phase_empty :
    ((Reconcile theScheme noFaults statusCluster statusRequest).outcome
      = .returned { Requeue := false, RequeueAfter := 0 } none ∧
    (findDeployment (Reconcile theScheme noFaults statusCluster statusRequest).cluster
      statusRequest.NamespacedName).map (fun d => d.Status.ReadyReplicas) = some 0 ∧
    (findMCPServer (Reconcile theScheme noFaults statusCluster statusRequest).cluster
      statusRequest.NamespacedName).map (fun m => m.Status.Phase) = some "" ∧
    (findMCPServer (Reconcile theScheme noFaults statusCluster statusRequest).cluster
      statusRequest.NamespacedName).map (fun m => m.Status.Phase) ≠ some "Pending") ∧
    ∀ (scheme : Scheme) (faults : Faults) (c : Cluster) (req : Request),
      (Reconcile scheme faults c req).cluster.MCPServers = c.MCPServers := by
  refine ⟨by decide, ?_⟩
  intro scheme faults c req
  exact (Reconcile_frame scheme faults c req).1

/-- C7, the code at the failing input: for the test parent, whose spec.secretName is
empty, the Deployment that Reconcile creates has a container with one secret-sourced
environment entry, referencing the secret named by the empty string; and in general
the built Deployment has one container with exactly one such entry, naming
spec.secretName whatever it is. -/
theorem empty_secret_name_still_referenced :
    (testServer.Spec.SecretName = "" ∧
    (Reconcile theScheme noFaults testCluster testRequest).outcome
      = .returned { Requeue := false, RequeueAfter := 0 } none ∧
    (findDeployment (Reconcile theScheme noFaults testCluster testRequest).cluster
      testRequest.NamespacedName).map
        (fun d => d.Spec.Template.Spec.Containers.map secretEnvNames) = some [[""]]) ∧
    ∀ (scheme : Scheme) (m : MCPServer),
      (stampedDeployment scheme m).Spec.Template.Spec.Containers.map secretEnvNames
        = [[m.Spec.SecretName]] := by
  refine ⟨by decide, ?_⟩
  intro scheme m
  have hspec : (stampedDeployment scheme m).Spec = (deploymentFor m).Spec := by
    unfold stampedDeployment
    split
    · rename_i d hd
      obtain ⟨gvk, -, hd1, -⟩ := SetControllerReference_ok hd
      rw [hd1]
      rfl
    · rfl
  rw [hspec]
  rfl

/-- C9, the code at the failing input: the parent was reconciled with secret name
"old-secret" and then edited to "new-secret"; the next Reconcile returns no error,
issues no write, and the stored Deployment, controlled by the parent, still
references "old-secret"; and in general the callback of the update path returns the
secret references of the Deployment it was given. -/
theorem secret_name_not_propagated :
    ((findMCPServer editedSecretCluster testRequest.NamespacedName).map
      (fun m => m.Spec.SecretName) = some "new-secret" ∧
    (findDeployment editedSecretCluster testRequest.NamespacedName).bind
      (fun d => GetControllerOf d.ObjectMeta.OwnerReferences)
      = some (newControllerRef (secretServer "new-secret")
          { Group := "mcp.mcp.dev", Version := "v1alpha1", Kind := "MCPServer" }) ∧
    (Reconcile theScheme noFaults editedSecretCluster testRequest).outcome
      = .returned { Requeue := false, RequeueAfter := 0 } none ∧
    (Reconcile theScheme noFaults editedSecretCluster testRequest).calls = [] ∧
    (findDeployment (Reconcile theScheme noFaults editedSecretCluster testRequest).cluster
      testRequest.NamespacedName).map
        (fun d => d.Spec.Template.Spec.Containers.map secretEnvNames)
      = some [["old-secret"]]) ∧
    ∀ (scheme : Scheme) (m : MCPServer) (d d2 : Deployment),
      mutateFn scheme m d = .ok d2 →
      d2.Spec.Template.Spec.Containers.map secretEnvNames
        = d.Spec.Template.Spec.Containers.map secretEnvNames := by
  refine ⟨by decide, ?_⟩
  intro scheme m d d2 h
  obtain ⟨d1, h1, h2⟩ := mutateFn_ok h
  obtain ⟨c0, cs, p0, ps, hc, -, hd1⟩ := assignFields_some h1
  obtain ⟨gvk, -, hd2, -⟩ := SetControllerReference_ok h2
  subst hd2 hd1
  rw [hc]
  rfl

end SmoothOperator

